import Mathlib

/-!
# go-grpc-api-demo: calculator, blog and greet services

A shallow embedding of the request handlers of
`calculator/calculator_server/server.go`, `blog/blog_server/server.go` and
`greet/greet_server/server.go`, followed by theorems about them.

Conventions of the embedding:

* Go machine integers are mathematical integers; every arithmetic result is
  reduced into the range of its type with `wrapInt32` / `wrapInt64`.
* A stream handler returns the list of messages it handed to `stream.Send`
  (in order) together with the way the call ended.
* A unary handler returns `Except Status Response`; `nil, err` is `.error`.
-/

set_option maxRecDepth 16384

namespace GoGrpc

/-! ## Machine integers -/

/-- Lowest `int64` value. -/
def minInt64 : Int := -9223372036854775808

/-- Highest `int64` value. -/
def maxInt64 : Int := 9223372036854775807

/-- Lowest `int32` value. -/
def minInt32 : Int := -2147483648

/-- Highest `int32` value. -/
def maxInt32 : Int := 2147483647

/-- Two's complement reduction of an integer into the `int64` range. -/
def wrapInt64 (x : Int) : Int := (x + 9223372036854775808) % 18446744073709551616 - 9223372036854775808

/-- Two's complement reduction of an integer into the `int32` range. -/
def wrapInt32 (x : Int) : Int := (x + 2147483648) % 4294967296 - 2147483648

/-- Membership in the `int64` range. -/
def isInt64 (x : Int) : Prop := minInt64 ≤ x ∧ x ≤ maxInt64

/-- Membership in the `int32` range. -/
def isInt32 (x : Int) : Prop := minInt32 ≤ x ∧ x ≤ maxInt32

instance (x : Int) : Decidable (isInt64 x) := by unfold isInt64; infer_instance

instance (x : Int) : Decidable (isInt32 x) := by unfold isInt32; infer_instance

/-! ## gRPC status -/

/-- The `codes.Code` values the handlers use. -/
inductive Code where
  | Canceled
  | InvalidArgument
  | DeadlineExceeded
  | NotFound
  | Internal
  deriving DecidableEq, Repr

/-- The error built by `status.Errorf(code, message)`. -/
structure Status where
  code : Code
  message : String
  deriving DecidableEq, Repr

deriving instance DecidableEq for Except

/-- How a streaming handler call ended. -/
inductive Ending where
  /-- The handler returned `nil`. -/
  | ok
  /-- The handler returned a status error. -/
  | failed (st : Status)
  /-- `log.Fatalf` ended the process. -/
  | fatal
  /-- The handler returned the error of a stream operation. -/
  | transportError
  /-- A run-time panic (integer division by zero). -/
  | panicked
  /-- The model ran out of loop iterations before the handler returned. -/
  | outOfFuel
  deriving DecidableEq, Repr

/-- Outcome of a streaming handler: the messages passed to `stream.Send`, in
order, and the way the call ended. -/
structure Run (β : Type) where
  sent : List β
  ending : Ending
  deriving DecidableEq

/-- Put a message in front of the messages of the rest of a run. -/
def Run.push {β : Type} (b : β) (r : Run β) : Run β := { r with sent := b :: r.sent }

/-! ## calculator_server: PrimeNumberDecomposition -/

/-- The `for inputNumber > 1` loop of `PrimeNumberDecomposition`, started from
the given values of `inputNumber` and `divisor`. The result of `stream.Send` is
discarded by the source, so every send is recorded and the loop goes on. The
first argument bounds the number of iterations. -/
def PrimeNumberDecomposition.loop : Nat → Int → Int → Run Int
  | 0, _, _ => ⟨[], .outOfFuel⟩
  | fuel + 1, inputNumber, divisor =>
    if inputNumber > 1 then
      if divisor = 0 then ⟨[], .panicked⟩
      else if Int.tmod inputNumber divisor = 0 then
        (PrimeNumberDecomposition.loop fuel (wrapInt64 (Int.tdiv inputNumber divisor)) divisor).push divisor
      else
        PrimeNumberDecomposition.loop fuel inputNumber (wrapInt64 (divisor + 1))
    else ⟨[], .ok⟩

/-- The handler `PrimeNumberDecomposition`: `divisor` starts at 2. -/
def PrimeNumberDecomposition (fuel : Nat) (inputNumber : Int) : Run Int :=
  PrimeNumberDecomposition.loop fuel inputNumber 2

/-! ## Streams -/

/-- What one call of `stream.Recv()` hands to a handler before the client has
closed its side: a request message, or an error other than `io.EOF`. A received
stream is a list of these; `Recv` on the exhausted list returns `io.EOF`. -/
inductive Recv (α : Type) where
  | msg (a : α)
  | err
  deriving DecidableEq, Repr

/-- The stream on which the given requests arrive without a read error. -/
def received {α : Type} (xs : List α) : List (Recv α) := xs.map Recv.msg

/-- The transport on which no `stream.Send` fails. -/
def sendsSucceed : Nat → Bool := fun _ => false

/-! ## calculator_server: FindMaximum -/

/-- The `for` loop of `FindMaximum`. `sendFails k` tells whether the `k`-th call
of `stream.Send` (counted from 0) returns an error; the third argument is the
current `maximum`, the fourth the number of sends made so far. A read error and
a send error both reach `log.Fatalf`. -/
def FindMaximum.loop (sendFails : Nat → Bool) : List (Recv Int) → Int → Nat → Run Int
  | [], _, _ => ⟨[], .ok⟩
  | .err :: _, _, _ => ⟨[], .fatal⟩
  | .msg number :: rest, maximum, k =>
    if number > maximum then
      if sendFails k then ⟨[number], .fatal⟩
      else (FindMaximum.loop sendFails rest number (k + 1)).push number
    else FindMaximum.loop sendFails rest maximum k

/-- The handler `FindMaximum`: `maximum := int32(0)`. -/
def FindMaximum (sendFails : Nat → Bool) (stream : List (Recv Int)) : Run Int :=
  FindMaximum.loop sendFails stream 0 0

/-- The emissions the specification describes for `FindMaximum`: the numbers
that strictly exceed the running maximum at the time they arrive, the running
maximum being the second argument. -/
def runningMaxima : List Int → Int → List Int
  | [], _ => []
  | number :: rest, maximum =>
    if number > maximum then number :: runningMaxima rest number
    else runningMaxima rest maximum

/-- The specification of `FindMaximum`: the running maximum starts at the lowest
representable `int32` value. -/
def FindMaximum_spec (numbers : List Int) : List Int := runningMaxima numbers minInt32

/-! ## IEEE 754 binary32 -/

/-- A `float32` value: not-a-number, an infinity, or the finite value
`(-1)^neg * m * 2^e`. Finite values are kept canonical: `m < 2^24`,
`-149 ≤ e ≤ 104`, `2^23 ≤ m` unless `e = -149`, and zero is `m = 0, e = -149`. -/
inductive float32 where
  | nan
  | inf (neg : Bool)
  | fin (neg : Bool) (m : Nat) (e : Int)
  deriving DecidableEq, Repr

namespace float32

/-- Integer part of `N / (D * 2^q)`. -/
def scaledFloor (N D : Nat) (q : Int) : Nat :=
  if 0 ≤ q then N / (D * 2 ^ q.toNat) else (N * 2 ^ (-q).toNat) / D

/-- Remainder of `N / (D * 2^q)` as the pair (numerator left over, denominator),
both scaled by the same power of two. -/
def scaledRem (N D : Nat) (q : Int) : Nat × Nat :=
  if 0 ≤ q then (N % (D * 2 ^ q.toNat), D * 2 ^ q.toNat)
  else ((N * 2 ^ (-q).toNat) % D, D)

/-- The least exponent `q ≥ start` (searching at most `fuel` steps upward) for
which the integer part of `N / (D * 2^q)` fits in 24 bits. -/
def quantum (N D : Nat) : Nat → Int → Int
  | 0, q => q
  | fuel + 1, q => if scaledFloor N D q < 2 ^ 24 then q else quantum N D fuel (q + 1)

/-- Round the exact value `(-1)^neg * N / D` (`D > 0`) to the nearest `float32`,
ties to the even significand; values beyond the largest finite one become an
infinity. -/
def round (neg : Bool) (N D : Nat) : float32 :=
  let q := quantum N D 254 (-149)
  let m0 := scaledFloor N D q
  let r := scaledRem N D q
  let m := if 2 * r.1 > r.2 ∨ (2 * r.1 = r.2 ∧ m0 % 2 = 1) then m0 + 1 else m0
  let mq : Nat × Int := if m = 2 ^ 24 then (2 ^ 23, q + 1) else (m, q)
  if mq.2 > 104 then .inf neg
  else if mq.1 = 0 then .fin neg 0 (-149)
  else .fin neg mq.1 mq.2

/-- The conversion `float32(x)` of an integer. -/
def ofInt (x : Int) : float32 := round (decide (x < 0)) x.natAbs 1

/-- The quotient `x / y` of two `float32` values. -/
def div : float32 → float32 → float32
  | .nan, _ => .nan
  | _, .nan => .nan
  | .inf _, .inf _ => .nan
  | .inf s, .fin t _ _ => .inf (xor s t)
  | .fin s _ _, .inf t => .fin (xor s t) 0 (-149)
  | .fin s m e, .fin t n f =>
    if n = 0 then (if m = 0 then .nan else .inf (xor s t))
    else if 0 ≤ e - f then round (xor s t) (m * 2 ^ (e - f).toNat) n
    else round (xor s t) m (n * 2 ^ (f - e).toNat)

/-- The exact value of a finite `float32`. -/
def toRat : float32 → Option ℚ
  | .fin neg m e => some ((if neg then -1 else 1) * (m : ℚ) * (2 : ℚ) ^ e)
  | _ => none

end float32

/-! ## calculator_server: ComputeAverage -/

/-- Modelled from the spec: the generated package `calculatorpb` is not among the
sources. The message `ComputeAverageResponse`, whose field receives a `float32`
in `server.go`. -/
structure ComputeAverageResponse where
  Average : float32
  deriving DecidableEq, Repr

/-- The `for` loop of `ComputeAverage`, from the given `sum` (an `int32`) and
`count` (an `int`, 64 bits wide). At `io.EOF` the response goes to
`stream.SendAndClose`, whose error, if any, is what the handler returns. -/
def ComputeAverage.loop (sendAndCloseFails : Bool) :
    List (Recv Int) → Int → Int → Run ComputeAverageResponse
  | [], sum, count =>
    ⟨[{ Average := float32.div (float32.ofInt sum) (float32.ofInt count) }],
      if sendAndCloseFails then .transportError else .ok⟩
  | .err :: _, _, _ => ⟨[], .fatal⟩
  | .msg number :: rest, sum, count =>
    ComputeAverage.loop sendAndCloseFails rest (wrapInt32 (sum + number)) (wrapInt64 (count + 1))

/-- The handler `ComputeAverage`: `sum := int32(0)`, `count := 0`. -/
def ComputeAverage (sendAndCloseFails : Bool) (stream : List (Recv Int)) :
    Run ComputeAverageResponse :=
  ComputeAverage.loop sendAndCloseFails stream 0 0

/-! ## calculator_server: SquareRoot -/

/-- Modelled from the spec: the generated package `calculatorpb` is not among the
sources. The message `SquareRootResponse`; `F` is the type of `float64` values. -/
structure SquareRootResponse (F : Type) where
  NumberRoot : F

/-- The handler `SquareRoot`. The library function `math.Sqrt`, composed with
the conversion `float64(number)`, is the parameter `sqrt`. -/
def SquareRoot {F : Type} (sqrt : Int → F) (number : Int) :
    Except Status (SquareRootResponse F) :=
  if number < 0 then
    .error ⟨.InvalidArgument, "Received a negative number: " ++ toString number⟩
  else
    .ok { NumberRoot := sqrt number }

/-! ## bson/primitive: ObjectID -/

/-- The type `primitive.ObjectID` of the BSON library, an array of 12 bytes. -/
structure ObjectID where
  bytes : List (Fin 256)
  size : bytes.length = 12
  deriving DecidableEq

/-- The zero value `primitive.NilObjectID`. -/
def NilObjectID : ObjectID := ⟨List.replicate 12 0, rfl⟩

/-- The lower-case hexadecimal digit of a four-bit value. -/
def hexDigit (n : Fin 16) : Char :=
  if n.val < 10 then Char.ofNat (48 + n.val) else Char.ofNat (87 + n.val)

/-- The function `hex.EncodeToString`: two digits per byte, high half first. -/
def hexEncode : List (Fin 256) → List Char
  | [] => []
  | b :: rest => hexDigit ⟨b.val / 16, by omega⟩ :: hexDigit ⟨b.val % 16, by omega⟩ :: hexEncode rest

/-- The method `ObjectID.Hex`. -/
def ObjectID.Hex (id : ObjectID) : String := String.mk (hexEncode id.bytes)

/-- The value of a hexadecimal digit, upper or lower case (`fromHexChar` of
`encoding/hex`); `none` for any other character. -/
def fromHexChar (c : Char) : Option (Fin 16) :=
  let n := c.toNat
  if h : 48 ≤ n ∧ n ≤ 57 then some ⟨n - 48, by omega⟩
  else if h : 97 ≤ n ∧ n ≤ 102 then some ⟨n - 87, by omega⟩
  else if h : 65 ≤ n ∧ n ≤ 70 then some ⟨n - 55, by omega⟩
  else none

/-- The function `hex.DecodeString`: `none` on a character that is not a
hexadecimal digit and on an odd number of digits. -/
def hexDecode : List Char → Option (List (Fin 256))
  | [] => some []
  | [_] => none
  | a :: b :: rest =>
    match fromHexChar a, fromHexChar b, hexDecode rest with
    | some hi, some lo, some tl => some (⟨hi.val * 16 + lo.val, by omega⟩ :: tl)
    | _, _, _ => none

/-- The function `primitive.ObjectIDFromHex`: the string must be 24 bytes long
and decode as hexadecimal; `none` stands for the returned error. -/
def ObjectIDFromHex (s : String) : Option ObjectID :=
  if s.utf8ByteSize ≠ 24 then none
  else
    match hexDecode s.toList with
    | some bs => if h : bs.length = 12 then some ⟨bs, h⟩ else none
    | none => none

/-! ## The document store

The MongoDB collection behind the global `collection` is an external
dependency, the Resource Store Adapter of the specification (insert, findById,
replace, deleteById, findAll). It is modelled as the list of its documents in
natural order, together with the log of the driver calls made on it. What the
environment decides for a call (a driver or network failure, the identifier
generated for an insert, a cursor failure) is an argument of the operation. -/

/-- The value of the `_id` field of a stored document: an ObjectID, or a value
of some other BSON type. -/
inductive BsonID where
  | objectID (o : ObjectID)
  | other (n : Nat)
  deriving DecidableEq

/-- A stored document with the fields the server reads and writes. -/
structure Document where
  _id : BsonID
  author_id : String
  content : String
  title : String
  deriving DecidableEq

/-- The driver calls of the server. -/
inductive DriverCall where
  | InsertOne
  | FindOne
  | ReplaceOne
  | DeleteOne
  | Find
  deriving DecidableEq, Repr

/-- Modelled from the spec: the document store, an external dependency reached
through the MongoDB driver. Its state is the list of stored documents in natural
order and the log of the driver calls made so far. -/
structure Collection where
  docs : List Document
  calls : List DriverCall
  deriving DecidableEq

/-- Modelled from the spec: identity of a record is its id; MongoDB keeps `_id`
values unique in a collection. -/
def Collection.uniqueIds (c : Collection) : Prop :=
  (c.docs.map (fun d => d._id)).Nodup

instance (c : Collection) : Decidable c.uniqueIds := by
  unfold Collection.uniqueIds; infer_instance

/-- Whether the document has the given ObjectID as `_id` (the filter
`bson.M{"_id": oid}`). -/
def Document.hasId (oid : ObjectID) (d : Document) : Bool :=
  decide (d._id = BsonID.objectID oid)

/-- The data-model struct `blogItem`. -/
structure blogItem where
  ID : ObjectID
  AuthorID : String
  Content : String
  Title : String
  deriving DecidableEq

/-- Decoding a document into a `blogItem`; fails when `_id` is not an
ObjectID. -/
def Document.Decode (d : Document) : Option blogItem :=
  match d._id with
  | .objectID o => some ⟨o, d.author_id, d.content, d.title⟩
  | .other _ => none

/-- Modelled from the spec: the adapter operation insert, the driver call
`collection.InsertOne(ctx, data)`. The field `ID` is tagged
`omitempty`: a zero `ID` is left out and the identifier `generated` by the
driver is used. The call fails on a driver failure and on a duplicate `_id`;
otherwise the document is appended and its `_id` returned as `InsertedID`. -/
def Collection.InsertOne (c : Collection) (fault : Bool) (generated : BsonID) (data : blogItem) :
    Option BsonID × Collection :=
  let c1 : Collection := { c with calls := c.calls ++ [.InsertOne] }
  if fault then (none, c1)
  else
    let id := if data.ID = NilObjectID then generated else .objectID data.ID
    if c.docs.any (fun d => decide (d._id = id)) then (none, c1)
    else (some id, { c1 with docs := c.docs ++ [⟨id, data.AuthorID, data.Content, data.Title⟩] })

/-- Modelled from the spec: the adapter operation findById, the driver call
`collection.FindOne(ctx, filter)` followed by `res.Decode(data)`:
the decoded first document with the given `_id`, or `none` for a returned
error (no such document, or a driver failure). -/
def Collection.FindOne (c : Collection) (fault : Bool) (oid : ObjectID) :
    Option blogItem × Collection :=
  let c1 : Collection := { c with calls := c.calls ++ [.FindOne] }
  if fault then (none, c1)
  else
    match c.docs.find? (Document.hasId oid) with
    | some d => (d.Decode, c1)
    | none => (none, c1)

/-- Replace the first document whose `_id` is `oid`. -/
def replaceFirst (oid : ObjectID) (new : Document) : List Document → List Document
  | [] => []
  | d :: rest => if d.hasId oid then new :: rest else d :: replaceFirst oid new rest

/-- Modelled from the spec: the adapter operation replace, the driver call
`collection.ReplaceOne(ctx, filter, data)`; `true` stands for a
returned error. A replacement without `_id` (zero `ID`) keeps the stored one; a
replacement with a different `_id` is refused by the store. No matching
document is not an error. -/
def Collection.ReplaceOne (c : Collection) (fault : Bool) (oid : ObjectID) (data : blogItem) :
    Bool × Collection :=
  let c1 : Collection := { c with calls := c.calls ++ [.ReplaceOne] }
  if fault then (true, c1)
  else if c.docs.any (Document.hasId oid) then
    if data.ID = NilObjectID ∨ data.ID = oid then
      let new : Document := ⟨.objectID oid, data.AuthorID, data.Content, data.Title⟩
      (false, { c1 with docs := replaceFirst oid new c.docs })
    else (true, c1)
  else (false, c1)

/-- Remove the first document whose `_id` is `oid`. -/
def deleteFirst (oid : ObjectID) : List Document → List Document
  | [] => []
  | d :: rest => if d.hasId oid then rest else d :: deleteFirst oid rest

/-- Modelled from the spec: the adapter operation deleteById, the driver call
`collection.DeleteOne(ctx, filter)`: `none` for a returned error,
otherwise `DeletedCount`. -/
def Collection.DeleteOne (c : Collection) (fault : Bool) (oid : ObjectID) :
    Option Nat × Collection :=
  let c1 : Collection := { c with calls := c.calls ++ [.DeleteOne] }
  if fault then (none, c1)
  else if c.docs.any (Document.hasId oid) then
    (some 1, { c1 with docs := deleteFirst oid c.docs })
  else (some 0, c1)

/-- Modelled from the spec: the lazy sequence of findAll, a driver cursor: the
documents still to come, and, when the cursor is going to
fail, the number of documents it delivers before failing. -/
structure Cursor where
  pending : List Document
  failsAfter : Option Nat

/-- Modelled from the spec: the adapter operation findAll, the driver call
`collection.Find(ctx, bson.D{})`: `none` for a returned error,
otherwise a cursor over all documents. -/
def Collection.Find (c : Collection) (fault : Bool) (failsAfter : Option Nat) :
    Option Cursor × Collection :=
  let c1 : Collection := { c with calls := c.calls ++ [.Find] }
  if fault then (none, c1) else (some ⟨c.docs, failsAfter⟩, c1)

/-! ## blog_server -/

/-- Modelled from the spec: the generated package `blogpb` is not among the
sources. The message `blogpb.Blog`: the four string fields of a blog record,
named as `server.go` names them. -/
structure Blog where
  Id : String
  AuthorId : String
  Title : String
  Content : String
  deriving DecidableEq, Repr

/-- Modelled from the spec: the getter `GetId` of the generated package `blogpb`;
like every getter it returns the zero value on a nil message. -/
def Blog.GetId : Option Blog → String
  | some b => b.Id
  | none => ""

/-- Modelled from the spec: the getter `GetAuthorId` of the generated package
`blogpb`. -/
def Blog.GetAuthorId : Option Blog → String
  | some b => b.AuthorId
  | none => ""

/-- Modelled from the spec: the getter `GetTitle` of the generated package
`blogpb`. -/
def Blog.GetTitle : Option Blog → String
  | some b => b.Title
  | none => ""

/-- Modelled from the spec: the getter `GetContent` of the generated package
`blogpb`. -/
def Blog.GetContent : Option Blog → String
  | some b => b.Content
  | none => ""

/-- Modelled from the spec: the message `CreateBlogRequest` of the generated
package `blogpb`: an optional blog. -/
structure CreateBlogRequest where
  Blog : Option Blog

/-- Modelled from the spec: the message `UpdateBlogRequest` of the generated
package `blogpb`: an optional blog. -/
structure UpdateBlogRequest where
  Blog : Option Blog

/-- Modelled from the spec: the message `ReadBlogRequest` of the generated
package `blogpb`: a blog id. -/
structure ReadBlogRequest where
  BlogId : String

/-- Modelled from the spec: the message `DeleteBlogRequest` of the generated
package `blogpb`: a blog id. -/
structure DeleteBlogRequest where
  BlogId : String

/-- Modelled from the spec: the message `CreateBlogResponse` of the generated
package `blogpb`. -/
structure CreateBlogResponse where
  Blog : Blog
  deriving DecidableEq, Repr

/-- Modelled from the spec: the message `ReadBlogResponse` of the generated
package `blogpb`. -/
structure ReadBlogResponse where
  Blog : Blog
  deriving DecidableEq, Repr

/-- Modelled from the spec: the message `UpdateBlogResponse` of the generated
package `blogpb`. -/
structure UpdateBlogResponse where
  Blog : Blog
  deriving DecidableEq, Repr

/-- Modelled from the spec: the message `ListBlogResponse` of the generated
package `blogpb`. -/
structure ListBlogResponse where
  Blog : Blog
  deriving DecidableEq, Repr

/-- Modelled from the spec: the message `DeleteBlogResponse` of the generated
package `blogpb`. -/
structure DeleteBlogResponse where
  BlogId : String
  deriving DecidableEq, Repr

/-- The handler `CreateBlog`. Status messages keep the literal text of the
source; the rendering of a wrapped library error is left out. -/
def CreateBlog (c : Collection) (fault : Bool) (generated : BsonID) (req : CreateBlogRequest) :
    Except Status CreateBlogResponse × Collection :=
  let blog := req.Blog
  let data : blogItem :=
    { ID := NilObjectID, AuthorID := Blog.GetAuthorId blog, Content := Blog.GetContent blog,
      Title := Blog.GetTitle blog }
  match c.InsertOne fault generated data with
  | (none, c1) => (.error ⟨.Internal, "Internal Error: "⟩, c1)
  | (some insertedID, c1) =>
    match insertedID with
    | .other _ => (.error ⟨.Internal, "cannot convert to objectID"⟩, c1)
    | .objectID oid =>
      (.ok { Blog := { Id := oid.Hex, AuthorId := Blog.GetAuthorId blog,
                       Content := Blog.GetContent blog, Title := Blog.GetTitle blog } }, c1)

/-- The handler `ReadBlog`. -/
def ReadBlog (c : Collection) (fault : Bool) (req : ReadBlogRequest) :
    Except Status ReadBlogResponse × Collection :=
  let blogID := req.BlogId
  match ObjectIDFromHex blogID with
  | none => (.error ⟨.InvalidArgument, "Cannot parse blog ID: "⟩, c)
  | some oid =>
    match c.FindOne fault oid with
    | (none, c1) => (.error ⟨.NotFound, "Cannot find blog with given ID: "⟩, c1)
    | (some data, c1) =>
      (.ok { Blog := { Id := data.ID.Hex, AuthorId := data.AuthorID, Title := data.Title,
                       Content := data.Title } }, c1)

/-- The handler `UpdateBlog`. -/
def UpdateBlog (c : Collection) (findFault replaceFault : Bool) (req : UpdateBlogRequest) :
    Except Status UpdateBlogResponse × Collection :=
  let blog := req.Blog
  match ObjectIDFromHex (Blog.GetId blog) with
  | none => (.error ⟨.InvalidArgument, "Cannot parse blog ID: "⟩, c)
  | some oid =>
    match c.FindOne findFault oid with
    | (none, c1) => (.error ⟨.NotFound, "Cannot find blog with given ID: "⟩, c1)
    | (some found, c1) =>
      let data : blogItem :=
        { found with AuthorID := Blog.GetAuthorId blog, Title := Blog.GetTitle blog,
                     Content := Blog.GetContent blog }
      match c1.ReplaceOne replaceFault oid data with
      | (true, c2) => (.error ⟨.Internal, "Cannot update object in mongodb: "⟩, c2)
      | (false, c2) =>
        (.ok { Blog := { Id := data.ID.Hex, AuthorId := data.AuthorID, Title := data.Title,
                         Content := data.Title } }, c2)

/-- The handler `DeleteBlog`. -/
def DeleteBlog (c : Collection) (fault : Bool) (req : DeleteBlogRequest) :
    Except Status DeleteBlogResponse × Collection :=
  let blogID := req.BlogId
  match ObjectIDFromHex blogID with
  | none => (.error ⟨.InvalidArgument, "Cannot parse blogID: "⟩, c)
  | some oid =>
    match c.DeleteOne fault oid with
    | (none, c1) => (.error ⟨.Internal, "Cannot delete object from mongodb: "⟩, c1)
    | (some deletedCount, c1) =>
      if deletedCount = 0 then (.error ⟨.NotFound, "Cannot find blog in mongodb"⟩, c1)
      else (.ok { BlogId := blogID }, c1)

/-- The `for cur.Next(ctx)` loop of `ListBlog` with the check of `cur.Err()`
after it. The result of `stream.Send` is discarded by the source. -/
def ListBlog.loop : List Document → Option Nat → Run ListBlogResponse
  | _, some 0 => ⟨[], .failed ⟨.Internal, "Unknow internal error: "⟩⟩
  | [], _ => ⟨[], .ok⟩
  | d :: rest, failsAfter =>
    match d.Decode with
    | none => ⟨[], .failed ⟨.Internal, "error while decoding data from mongodb: "⟩⟩
    | some data =>
      (ListBlog.loop rest (failsAfter.map (· - 1))).push
        { Blog := { Id := data.ID.Hex, AuthorId := data.AuthorID, Title := data.Title,
                    Content := data.Title } }

/-- The handler `ListBlog`. -/
def ListBlog (c : Collection) (fault : Bool) (failsAfter : Option Nat) :
    Run ListBlogResponse × Collection :=
  match c.Find fault failsAfter with
  | (none, c1) => (⟨[], .failed ⟨.Internal, "Unknow internal error from mongodb: "⟩⟩, c1)
  | (some cur, c1) => (ListBlog.loop cur.pending cur.failsAfter, c1)

/-! ## calculator_server: the states of the PrimeNumberDecomposition loop -/

/-- The values (`inputNumber`, `divisor`) at each evaluation of the condition
`inputNumber > 1` of the loop of `PrimeNumberDecomposition`, in order; the loop
is the one of `PrimeNumberDecomposition.loop`, and when the iteration budget
is enough the last pair is the one at which it stopped. -/
def PrimeNumberDecomposition.states : Nat → Int → Int → List (Int × Int)
  | 0, _, _ => []
  | fuel + 1, inputNumber, divisor =>
    (inputNumber, divisor) ::
      (if inputNumber > 1 then
        if divisor = 0 then []
        else if Int.tmod inputNumber divisor = 0 then
          PrimeNumberDecomposition.states fuel (wrapInt64 (Int.tdiv inputNumber divisor)) divisor
        else
          PrimeNumberDecomposition.states fuel inputNumber (wrapInt64 (divisor + 1))
      else [])

/-- One iteration of the loop, from the state `s` to the state `t`, as the
specification describes it: the remaining value is more than 1, the divisor is
at least 2 and at most the remaining value, and either the divisor divides the
remaining value, which is divided by it and strictly decreases, or the divisor
goes up by exactly one. -/
def PrimeNumberDecomposition.iteration (s t : Int × Int) : Prop :=
  1 < s.1 ∧ 2 ≤ s.2 ∧ s.2 ≤ s.1 ∧ s.2 ≤ maxInt64 ∧
    ((s.1 % s.2 = 0 ∧ t = (s.1 / s.2, s.2) ∧ t.1 < s.1) ∨ (s.1 % s.2 ≠ 0 ∧ t = (s.1, s.2 + 1)))

/-- The value emitted in a state of the loop, if any: the divisor, when the
remaining value is more than 1 and the divisor divides it. -/
def PrimeNumberDecomposition.emission (s : Int × Int) : Option Int :=
  if 1 < s.1 ∧ s.1 % s.2 = 0 then some s.2 else none

instance : DecidableRel PrimeNumberDecomposition.iteration := fun s t =>
  inferInstanceAs (Decidable (1 < s.1 ∧ 2 ≤ s.2 ∧ s.2 ≤ s.1 ∧ s.2 ≤ maxInt64 ∧
    ((s.1 % s.2 = 0 ∧ t = (s.1 / s.2, s.2) ∧ t.1 < s.1) ∨ (s.1 % s.2 ≠ 0 ∧ t = (s.1, s.2 + 1)))))

/-! ## greet_server -/

/-- Modelled from the spec: the generated package `greetpb` is not among the
sources. The message `Greeting`: a first name and a last name. -/
structure Greeting where
  FirstName : String
  LastName : String
  deriving DecidableEq, Repr

/-- Modelled from the spec: the getter `GetFirstName` of the generated package
`greetpb`; like every getter it returns the zero value on a nil message. -/
def Greeting.GetFirstName : Option Greeting → String
  | some g => g.FirstName
  | none => ""

/-- Modelled from the spec: the getter `GetLastName` of the generated package
`greetpb`. -/
def Greeting.GetLastName : Option Greeting → String
  | some g => g.LastName
  | none => ""

/-- Modelled from the spec: the message `LongGreetRequest` of the generated
package `greetpb`: an optional greeting. -/
structure LongGreetRequest where
  Greeting : Option Greeting
  deriving DecidableEq, Repr

/-- Modelled from the spec: the message `LongGreetResponse` of the generated
package `greetpb`. -/
structure LongGreetResponse where
  Result : String
  deriving DecidableEq, Repr

/-- Modelled from the spec: the message `GreetEveryoneRequest` of the generated
package `greetpb`: an optional greeting. -/
structure GreetEveryoneRequest where
  Greeting : Option Greeting
  deriving DecidableEq, Repr

/-- Modelled from the spec: the message `GreetEveryoneResponse` of the generated
package `greetpb`. -/
structure GreetEveryoneResponse where
  Result : String
  deriving DecidableEq, Repr

/-- Modelled from the spec: the message `GreetWithDeadLineRequest` of the
generated package `greetpb`: an optional greeting. -/
structure GreetWithDeadLineRequest where
  Greeting : Option Greeting
  deriving DecidableEq, Repr

/-- Modelled from the spec: the message `GreetWithDeadLineResponse` of the
generated package `greetpb`. -/
structure GreetWithDeadLineResponse where
  Result : String
  deriving DecidableEq, Repr

/-- The `for` loop of `LongGreet`, from the given `result`. At `io.EOF` the
response goes to `stream.SendAndClose`, whose error, if any, is what the
handler returns; any other read error reaches `log.Fatalf`. -/
def LongGreet.loop (sendAndCloseFails : Bool) :
    List (Recv LongGreetRequest) → String → Run LongGreetResponse
  | [], result =>
    ⟨[{ Result := result }], if sendAndCloseFails then .transportError else .ok⟩
  | .err :: _, _ => ⟨[], .fatal⟩
  | .msg req :: rest, result =>
    let firstName := Greeting.GetFirstName req.Greeting
    let lastName := Greeting.GetLastName req.Greeting
    LongGreet.loop sendAndCloseFails rest
      (result ++ ("Hello " ++ firstName ++ " " ++ lastName ++ " ! "))

/-- The handler `LongGreet`: `result := ""`. -/
def LongGreet (sendAndCloseFails : Bool) (stream : List (Recv LongGreetRequest)) :
    Run LongGreetResponse :=
  LongGreet.loop sendAndCloseFails stream ""

/-- The `for` loop of `GreetEveryone`. `sendFails k` tells whether the `k`-th
call of `stream.Send` (counted from 0) returns an error; the last argument is
the number of sends made so far. A read error and a send error both reach
`log.Fatalf`. -/
def GreetEveryone.loop (sendFails : Nat → Bool) :
    List (Recv GreetEveryoneRequest) → Nat → Run GreetEveryoneResponse
  | [], _ => ⟨[], .ok⟩
  | .err :: _, _ => ⟨[], .fatal⟩
  | .msg req :: rest, k =>
    let firstName := Greeting.GetFirstName req.Greeting
    let result := "Hello " ++ firstName ++ "! "
    if sendFails k then ⟨[{ Result := result }], .fatal⟩
    else (GreetEveryone.loop sendFails rest (k + 1)).push { Result := result }

/-- The handler `GreetEveryone`. -/
def GreetEveryone (sendFails : Nat → Bool) (stream : List (Recv GreetEveryoneRequest)) :
    Run GreetEveryoneResponse :=
  GreetEveryone.loop sendFails stream 0

/-- The value of `ctx.Err()`: `nil` while the context is live, then
`context.Canceled` or `context.DeadlineExceeded`. -/
inductive CtxErr where
  | nil
  | Canceled
  | DeadlineExceeded
  deriving DecidableEq, Repr

/-- What `GreetWithDeadLine` does, in order: a poll of `ctx.Err()`, or one work
step (`time.Sleep` of one second). -/
inductive Event where
  | poll
  | sleep
  deriving DecidableEq, Repr

/-- The duration `time.Second`, in nanoseconds. -/
def Second : Nat := 1000000000

/-- The loop `for i := 0; i < 3; i++` of `GreetWithDeadLine`. The context `ctx`
gives the value of `ctx.Err()` at each instant, counted in nanoseconds from
the start of the handler; only `time.Sleep` takes time. The first number is
the count of iterations still to run, the second the present instant. The
result tells whether a poll saw `context.Canceled`, with the events so far. -/
def GreetWithDeadLine.loop (ctx : Nat → CtxErr) : Nat → Nat → Bool × List Event
  | 0, _ => (false, [])
  | n + 1, now =>
    if ctx now = .Canceled then (true, [.poll])
    else
      let r := GreetWithDeadLine.loop ctx n (now + 1 * Second)
      (r.1, .poll :: .sleep :: r.2)

/-- The handler `GreetWithDeadLine`: its result and the events of the run. -/
def GreetWithDeadLine (ctx : Nat → CtxErr) (req : GreetWithDeadLineRequest) :
    Except Status GreetWithDeadLineResponse × List Event :=
  match GreetWithDeadLine.loop ctx 3 0 with
  | (true, events) => (.error ⟨.Canceled, "the client has canceled the request"⟩, events)
  | (false, events) =>
    let firstName := Greeting.GetFirstName req.Greeting
    (.ok { Result := "Hello " ++ firstName }, events)

/-- The events of `k` completed iterations: a poll and a work step each. -/
def completedSteps : Nat → List Event
  | 0 => []
  | k + 1 => .poll :: .sleep :: completedSteps k

/-- A context whose cancellation becomes visible 2.5 seconds after the handler
started: after the third poll, before the third work step is over. -/
def cancelledDuringLastStep : Nat → CtxErr :=
  fun t => if t < 2500000000 then .nil else .Canceled

/-- A context whose deadline has elapsed before the handler starts. -/
def deadlineElapsed : Nat → CtxErr := fun _ => .DeadlineExceeded

/-- The request of `greet_client`. -/
def exampleGreeting : Greeting := { FirstName := "Rahul", LastName := "Singh" }

/-! ## Example data -/

/-- An identifier, as the store might generate it. -/
def exampleId : ObjectID := ⟨[95, 10, 255, 0, 1, 2, 3, 4, 5, 6, 7, 171], rfl⟩

/-- The blog that `blog_client` creates. -/
def exampleBlog : Blog :=
  { Id := "", AuthorId := "rahul", Title := "my first blog", Content := "content of first blog" }

/-- The blog that `blog_client` sends to `UpdateBlog`, for `exampleId`. -/
def exampleUpdate : Blog :=
  { Id := "5f0aff0001020304050607ab", AuthorId := "changed Auther",
    Title := "changed: my first blog", Content := "changed: content of first blog" }

/-- The empty collection, on which no call has been made. -/
def emptyCollection : Collection := ⟨[], []⟩

/-- A collection holding the blog of `blog_client` under `exampleId`. -/
def exampleCollection : Collection :=
  ⟨[⟨.objectID exampleId, "rahul", "content of first blog", "my first blog"⟩], []⟩

/-! ## Lemmas: machine integers -/

/-- Reduction into the `int64` range leaves a value of the range alone. -/
theorem wrapInt64_eq_self {x : Int} (h : isInt64 x) : wrapInt64 x = x := by
  unfold isInt64 minInt64 maxInt64 at h
  unfold wrapInt64
  omega

/-- Reduction into the `int32` range leaves a value of the range alone. -/
theorem wrapInt32_eq_self {x : Int} (h : isInt32 x) : wrapInt32 x = x := by
  unfold isInt32 minInt32 maxInt32 at h
  unfold wrapInt32
  omega

/-! ## Lemmas: PrimeNumberDecomposition -/

/-- A number at least 2 that divides `n` while nothing in `[2, d)` does is prime. -/
theorem prime_of_least_divisor {n d : Int} (hd : 2 ≤ d) (hdvd : d ∣ n)
    (hleast : ∀ k : Int, 2 ≤ k → k < d → ¬ k ∣ n) : Nat.Prime d.toNat := by
  rw [Nat.prime_def_lt]
  refine ⟨by omega, fun m hm hmd => ?_⟩
  by_contra hne
  have hm0 : m ≠ 0 := by
    rintro rfl
    have := Nat.eq_zero_of_zero_dvd hmd
    omega
  have h2 : (2 : Int) ≤ (m : Int) := by omega
  have hlt : (m : Int) < d := by omega
  have hmd2 : (m : Int) ∣ d := by
    have := Int.natCast_dvd_natCast.mpr hmd
    rwa [Int.toNat_of_nonneg (by omega)] at this
  exact hleast m h2 hlt (dvd_trans hmd2 hdvd)

/-- Invariant of the loop: with `divisor = d ≥ 2`, `inputNumber = n` in
`[1, maxInt64]` and no number in `[2, d)` dividing `n`, the loop returns, and
what it sends are primes, each at least `d`, in non-decreasing order, with
product `n`. -/
theorem PrimeNumberDecomposition_loop_spec : ∀ (fuel : Nat) (n d : Int),
    1 ≤ n → n ≤ maxInt64 → 2 ≤ d →
    (∀ k : Int, 2 ≤ k → k < d → ¬ k ∣ n) →
    2 * n - d < fuel → 0 < fuel →
    (PrimeNumberDecomposition.loop fuel n d).ending = .ok ∧
    (∀ p ∈ (PrimeNumberDecomposition.loop fuel n d).sent, d ≤ p ∧ Nat.Prime p.toNat) ∧
    (PrimeNumberDecomposition.loop fuel n d).sent.Sorted (· ≤ ·) ∧
    (PrimeNumberDecomposition.loop fuel n d).sent.prod = n := by
  intro fuel
  induction fuel with
  | zero =>
    intro n d h1 hmax hd hleast hfuel hpos
    omega
  | succ fuel ih =>
    intro n d h1 hmax hd hleast hfuel hpos
    unfold PrimeNumberDecomposition.loop
    by_cases hn : n > 1
    · have hdn : d ≤ n := by
        by_contra hlt
        exact hleast n (by omega) (by omega) (dvd_refl n)
      have hd0 : d ≠ 0 := by omega
      rw [if_pos hn, if_neg hd0]
      rw [Int.tmod_eq_emod (by omega) (by omega)]
      by_cases hmod : n % d = 0
      · rw [if_pos hmod, Int.tdiv_eq_ediv (by omega) (by omega)]
        have hdvd : d ∣ n := Int.dvd_of_emod_eq_zero hmod
        have hq : n / d * d = n := Int.ediv_mul_cancel hdvd
        have hq1 : 1 ≤ n / d := by
          by_contra hlt
          have : n / d ≤ 0 := by omega
          nlinarith
        have hqn : n / d < n := by nlinarith
        have hwrap : wrapInt64 (n / d) = n / d := by
          apply wrapInt64_eq_self
          unfold isInt64 minInt64
          unfold maxInt64 at *
          omega
        rw [hwrap]
        have hleast2 : ∀ k : Int, 2 ≤ k → k < d → ¬ k ∣ n / d := by
          intro k hk hkd hkq
          exact hleast k hk hkd (dvd_trans hkq (Int.ediv_dvd_of_dvd hdvd))
        have hfuel2 : 2 * (n / d) - d < fuel := by push_cast at hfuel; omega
        obtain ⟨e1, e2, e3, e4⟩ := ih (n / d) d hq1 (by omega) hd hleast2 hfuel2 (by push_cast at hfuel; omega)
        refine ⟨e1, ?_, ?_, ?_⟩
        · intro p hp
          simp only [Run.push, List.mem_cons] at hp
          rcases hp with rfl | hp
          · exact ⟨le_refl _, prime_of_least_divisor hd hdvd hleast⟩
          · exact e2 p hp
        · simp only [Run.push, List.sorted_cons]
          exact ⟨fun b hb => (e2 b hb).1, e3⟩
        · simp only [Run.push, List.prod_cons, e4]
          rw [mul_comm]; exact hq
      · rw [if_neg hmod]
        have hne : d ≠ n := by
          rintro rfl
          exact hmod (Int.emod_self)
        have hwrap : wrapInt64 (d + 1) = d + 1 := by
          apply wrapInt64_eq_self
          unfold isInt64 minInt64
          unfold maxInt64 at *
          omega
        rw [hwrap]
        have hleast2 : ∀ k : Int, 2 ≤ k → k < d + 1 → ¬ k ∣ n := by
          intro k hk hkd
          by_cases hkd2 : k < d
          · exact hleast k hk hkd2
          · have : k = d := by omega
            subst this
            intro hdvd
            exact hmod (Int.emod_eq_zero_of_dvd hdvd)
        have hfuel2 : 2 * n - (d + 1) < fuel := by push_cast at hfuel; omega
        obtain ⟨e1, e2, e3, e4⟩ := ih n (d + 1) h1 hmax (by omega) hleast2 hfuel2 (by push_cast at hfuel; omega)
        refine ⟨e1, fun p hp => ⟨by have := (e2 p hp).1; omega, (e2 p hp).2⟩, e3, e4⟩
    · rw [if_neg hn]
      have : n = 1 := by omega
      subst this
      simp

/-! ## Lemmas: the document store -/

/-- The filter on `_id` as a proposition. -/
theorem Document.hasId_iff (oid : ObjectID) (d : Document) :
    d.hasId oid = true ↔ d._id = BsonID.objectID oid := by
  simp [Document.hasId]

/-- With unique identifiers, nothing with the identifier is left once its first
document is removed. -/
theorem find_deleteFirst_eq_none (oid : ObjectID) : ∀ docs : List Document,
    (docs.map (fun d => d._id)).Nodup →
    (deleteFirst oid docs).find? (Document.hasId oid) = none := by
  intro docs
  induction docs with
  | nil => intro _; rfl
  | cons d rest ih =>
    intro hnd
    rw [List.map_cons, List.nodup_cons] at hnd
    unfold deleteFirst
    by_cases hd : d.hasId oid = true
    · rw [if_pos hd, List.find?_eq_none]
      intro x hx hxid
      apply hnd.1
      rw [List.mem_map]
      refine ⟨x, hx, ?_⟩
      rw [(Document.hasId_iff oid x).mp hxid, (Document.hasId_iff oid d).mp hd]
    · rw [if_neg hd, List.find?_cons]
      simp only [Bool.not_eq_true] at hd
      rw [hd]
      exact ih hnd.2

/-- Whether some document carries the identifier, as a proposition. -/
theorem any_hasId_iff (oid : ObjectID) (docs : List Document) :
    docs.any (Document.hasId oid) = true ↔ ∃ d ∈ docs, d._id = BsonID.objectID oid := by
  simp [List.any_eq_true, Document.hasId_iff]

/-! ## Lemmas: handlers -/

/-- Decoding a digit produced by `hexDigit` gives the four-bit value back. -/
theorem fromHexChar_hexDigit : ∀ n : Fin 16, fromHexChar (hexDigit n) = some n := by decide

/-- A hexadecimal digit takes one byte in UTF-8. -/
theorem hexDigit_utf8Size : ∀ n : Fin 16, (hexDigit n).utf8Size = 1 := by decide

/-- Decoding an encoded byte sequence gives the bytes back. -/
theorem hexDecode_hexEncode : ∀ bs : List (Fin 256), hexDecode (hexEncode bs) = some bs := by
  intro bs
  induction bs with
  | nil => rfl
  | cons b rest ih =>
    simp only [hexEncode, hexDecode, fromHexChar_hexDigit, ih]
    congr 2
    apply Fin.ext
    simp only
    omega

/-- The encoding of a byte sequence is twice as many bytes long. -/
theorem utf8ByteSize_hexEncode : ∀ bs : List (Fin 256),
    String.utf8ByteSize.go (hexEncode bs) = 2 * bs.length := by
  intro bs
  induction bs with
  | nil => rfl
  | cons b rest ih =>
    simp only [hexEncode, String.utf8ByteSize.go, hexDigit_utf8Size, ih, List.length_cons]
    omega

/-- Parsing the hexadecimal form of an ObjectID gives the ObjectID back. -/
theorem ObjectIDFromHex_Hex (o : ObjectID) : ObjectIDFromHex o.Hex = some o := by
  obtain ⟨bs, hbs⟩ := o
  have h1 : (String.mk (hexEncode bs)).utf8ByteSize = 24 := by
    show String.utf8ByteSize.go (hexEncode bs) = 24
    rw [utf8ByteSize_hexEncode, hbs]
  simp only [ObjectIDFromHex, ObjectID.Hex, h1, ne_eq, not_true_eq_false, if_false,
    String.toList, hexDecode_hexEncode, hbs, dite_true]

/-- No document is found when none carries the identifier. -/
theorem find_hasId_eq_none (oid : ObjectID) (docs : List Document)
    (h : ∀ d ∈ docs, d._id ≠ BsonID.objectID oid) :
    docs.find? (Document.hasId oid) = none := by
  rw [List.find?_eq_none]
  intro d hd hid
  exact h d hd ((Document.hasId_iff oid d).mp hid)

/-- What `CreateBlog` followed by `ReadBlog` of the returned id does, for every
collection, request and fresh identifier assigned by the store. -/
theorem CreateBlog_then_ReadBlog (c : Collection) (req : CreateBlogRequest) (oid : ObjectID)
    (hfresh : ∀ d ∈ c.docs, d._id ≠ BsonID.objectID oid) :
    (CreateBlog c false (.objectID oid) req).1 =
      .ok { Blog := { Id := oid.Hex, AuthorId := Blog.GetAuthorId req.Blog,
                      Title := Blog.GetTitle req.Blog, Content := Blog.GetContent req.Blog } } ∧
    (ReadBlog (CreateBlog c false (.objectID oid) req).2 false ⟨oid.Hex⟩).1 =
      .ok { Blog := { Id := oid.Hex, AuthorId := Blog.GetAuthorId req.Blog,
                      Title := Blog.GetTitle req.Blog, Content := Blog.GetTitle req.Blog } } := by
  have hany : c.docs.any (fun d => decide (d._id = BsonID.objectID oid)) = false := by
    rw [List.any_eq_false]
    intro d hd
    simpa using hfresh d hd
  have hnew : Document.hasId oid ⟨.objectID oid, Blog.GetAuthorId req.Blog,
      Blog.GetContent req.Blog, Blog.GetTitle req.Blog⟩ = true := by
    simp [Document.hasId]
  simp only [CreateBlog, Collection.InsertOne, if_true, hany, Bool.false_eq_true, if_false,
    ReadBlog, ObjectIDFromHex_Hex, Collection.FindOne, List.find?_append,
    find_hasId_eq_none oid c.docs hfresh, List.find?_cons, hnew, Option.none_or,
    List.find?_nil, Document.Decode, true_and]

/-- Without read or send errors `FindMaximum` emits the running maxima that
start from the current `maximum`. -/
theorem FindMaximum_loop_received (xs : List Int) : ∀ (maximum : Int) (k : Nat),
    FindMaximum.loop sendsSucceed (received xs) maximum k = ⟨runningMaxima xs maximum, .ok⟩ := by
  induction xs with
  | nil => intro maximum k; rfl
  | cons x rest ih =>
    intro maximum k
    simp only [received, List.map_cons, FindMaximum.loop, runningMaxima, sendsSucceed,
      Bool.false_eq_true, if_false]
    by_cases h : x > maximum
    · rw [if_pos h, if_pos h]
      have := ih x (k + 1)
      simp only [received] at this
      rw [this]; rfl
    · rw [if_neg h, if_neg h]
      have := ih maximum k
      simp only [received] at this
      exact this

/-- Sums that stay in range: `ComputeAverage` divides the sum by the count. -/
theorem ComputeAverage_loop_received (xs : List Int) : ∀ (sum count : Int),
    (∀ k ≤ xs.length, isInt32 (sum + (xs.take k).sum)) →
    isInt64 count → isInt64 (count + xs.length) →
    ComputeAverage.loop false (received xs) sum count =
      ⟨[{ Average := float32.div (float32.ofInt (sum + xs.sum))
            (float32.ofInt (count + xs.length)) }], .ok⟩ := by
  induction xs with
  | nil => intro sum count _ _ _; simp [received, ComputeAverage.loop]
  | cons x rest ih =>
    intro sum count hs hc hl
    have h1 : isInt32 (sum + x) := by simpa using hs 1 (by simp)
    have hc1 : isInt64 (count + 1) := by
      unfold isInt64 minInt64 maxInt64 at *
      simp only [List.length_cons, Nat.cast_add, Nat.cast_one] at hl
      omega
    simp only [received, List.map_cons, ComputeAverage.loop, wrapInt32_eq_self h1,
      wrapInt64_eq_self hc1]
    have := ih (sum + x) (count + 1) (fun k hk => by
      have := hs (k + 1) (by simpa using hk)
      simpa [add_assoc] using this) hc1 (by
      simp only [List.length_cons, Nat.cast_add, Nat.cast_one] at hl
      rw [add_assoc, add_comm 1]; exact hl)
    simp only [received] at this
    rw [this]
    simp only [List.sum_cons, List.length_cons, Nat.cast_add, Nat.cast_one]
    rw [add_assoc, add_assoc, add_comm 1]

/-- Replacing a document by one with the same `_id` keeps the list of identifiers. -/
theorem replaceFirst_ids (oid : ObjectID) (a ct t : String) : ∀ docs : List Document,
    (replaceFirst oid ⟨.objectID oid, a, ct, t⟩ docs).map (fun d => d._id) =
      docs.map (fun d => d._id) := by
  intro docs
  induction docs with
  | nil => rfl
  | cons d rest ih =>
    unfold replaceFirst
    by_cases hd : d.hasId oid = true
    · rw [if_pos hd]
      simp only [List.map_cons, (Document.hasId_iff oid d).mp hd]
    · rw [if_neg hd, List.map_cons, List.map_cons, ih]

/-- Removing a document leaves a sublist. -/
theorem deleteFirst_sublist (oid : ObjectID) : ∀ docs : List Document,
    (deleteFirst oid docs).Sublist docs := by
  intro docs
  induction docs with
  | nil => exact List.Sublist.slnil
  | cons d rest ih =>
    unfold deleteFirst
    by_cases hd : d.hasId oid = true
    · rw [if_pos hd]; exact List.sublist_cons_self d rest
    · rw [if_neg hd]; exact ih.cons₂ d

/-- `InsertOne` keeps identifiers unique. -/
theorem InsertOne_uniqueIds (c : Collection) (fault : Bool) (generated : BsonID) (data : blogItem)
    (hc : c.uniqueIds) : (c.InsertOne fault generated data).2.uniqueIds := by
  unfold Collection.InsertOne
  cases fault with
  | true => exact hc
  | false =>
    simp only [Bool.false_eq_true, if_false]
    generalize (if data.ID = NilObjectID then generated else BsonID.objectID data.ID) = id
    by_cases hany : (c.docs.any fun d => decide (d._id = id)) = true
    · rw [if_pos hany]; exact hc
    · rw [if_neg hany]
      unfold Collection.uniqueIds at hc ⊢
      simp only [List.map_append, List.map_cons, List.map_nil]
      rw [List.nodup_append]
      refine ⟨hc, List.nodup_singleton _, ?_⟩
      simp only [List.disjoint_singleton, List.mem_map, not_exists, not_and]
      intro d hd hid
      apply hany
      rw [List.any_eq_true]
      exact ⟨d, hd, by simpa using hid⟩

/-- `FindOne` does not change the documents. -/
theorem FindOne_docs (c : Collection) (fault : Bool) (oid : ObjectID) :
    (c.FindOne fault oid).2.docs = c.docs := by
  unfold Collection.FindOne
  cases fault with
  | true => rfl
  | false =>
    simp only [Bool.false_eq_true, if_false]
    split <;> rfl

/-- `ReplaceOne` keeps identifiers unique. -/
theorem ReplaceOne_uniqueIds (c : Collection) (fault : Bool) (oid : ObjectID) (data : blogItem)
    (hc : c.uniqueIds) : (c.ReplaceOne fault oid data).2.uniqueIds := by
  unfold Collection.ReplaceOne
  cases fault with
  | true => exact hc
  | false =>
    simp only [Bool.false_eq_true, if_false]
    split
    · split
      · unfold Collection.uniqueIds at hc ⊢
        simp only [replaceFirst_ids]
        exact hc
      · exact hc
    · exact hc

/-- `DeleteOne` keeps identifiers unique. -/
theorem DeleteOne_uniqueIds (c : Collection) (fault : Bool) (oid : ObjectID)
    (hc : c.uniqueIds) : (c.DeleteOne fault oid).2.uniqueIds := by
  unfold Collection.DeleteOne
  cases fault with
  | true => exact hc
  | false =>
    simp only [Bool.false_eq_true, if_false]
    split
    · unfold Collection.uniqueIds at hc ⊢
      exact hc.sublist ((deleteFirst_sublist oid c.docs).map _)
    · exact hc



/-- `FindOne` keeps identifiers unique. -/
theorem FindOne_uniqueIds (c : Collection) (fault : Bool) (oid : ObjectID)
    (hc : c.uniqueIds) : (c.FindOne fault oid).2.uniqueIds := by
  unfold Collection.uniqueIds at hc ⊢
  rw [FindOne_docs]; exact hc

/-- Every handler keeps the identifiers of the collection unique. -/
theorem handlers_preserve_uniqueIds (c : Collection) (hc : c.uniqueIds) :
    (∀ f g req, (CreateBlog c f g req).2.uniqueIds) ∧
    (∀ f req, (ReadBlog c f req).2.uniqueIds) ∧
    (∀ f g req, (UpdateBlog c f g req).2.uniqueIds) ∧
    (∀ f req, (DeleteBlog c f req).2.uniqueIds) ∧
    (∀ f k, (ListBlog c f k).2.uniqueIds) := by
  refine ⟨?_, ?_, ?_, ?_, ?_⟩
  · intro f g req
    have h := InsertOne_uniqueIds c f g
      ⟨NilObjectID, Blog.GetAuthorId req.Blog, Blog.GetContent req.Blog, Blog.GetTitle req.Blog⟩ hc
    simp only [CreateBlog]
    split
    · rename_i c1 heq; rw [heq] at h; exact h
    · rename_i id c1 heq; rw [heq] at h; split <;> exact h
  · intro f req
    simp only [ReadBlog]
    split
    · exact hc
    · rename_i oid _
      have h := FindOne_uniqueIds c f oid hc
      split
      · rename_i c1 heq; rw [heq] at h; exact h
      · rename_i d c1 heq; rw [heq] at h; exact h
  · intro f g req
    simp only [UpdateBlog]
    split
    · exact hc
    · rename_i oid _
      have h := FindOne_uniqueIds c f oid hc
      split
      · rename_i c1 heq; rw [heq] at h; exact h
      · rename_i d c1 heq
        rw [heq] at h
        have h2 := ReplaceOne_uniqueIds c1 g oid
          { d with AuthorID := Blog.GetAuthorId req.Blog, Title := Blog.GetTitle req.Blog,
                   Content := Blog.GetContent req.Blog } h
        split
        · rename_i c2 heq2; rw [heq2] at h2; exact h2
        · rename_i c2 heq2; rw [heq2] at h2; exact h2
  · intro f req
    simp only [DeleteBlog]
    split
    · exact hc
    · rename_i oid _
      have h := DeleteOne_uniqueIds c f oid hc
      split
      · rename_i c1 heq; rw [heq] at h; exact h
      · rename_i n c1 heq; rw [heq] at h; split <;> exact h
  · intro f k
    unfold ListBlog Collection.Find
    cases f <;> exact hc

/-- What `UpdateBlog` does on a well-formed id of a record present in the
collection when the store does not fail. -/
theorem UpdateBlog_present (c : Collection) (req : UpdateBlogRequest) (oid : ObjectID)
    (hid : ObjectIDFromHex (Blog.GetId req.Blog) = some oid)
    (hpresent : ∃ d ∈ c.docs, d._id = BsonID.objectID oid) :
    UpdateBlog c false false req =
      (.ok { Blog := { Id := oid.Hex, AuthorId := Blog.GetAuthorId req.Blog,
                       Title := Blog.GetTitle req.Blog, Content := Blog.GetTitle req.Blog } },
       { docs := replaceFirst oid ⟨.objectID oid, Blog.GetAuthorId req.Blog,
                   Blog.GetContent req.Blog, Blog.GetTitle req.Blog⟩ c.docs,
         calls := c.calls ++ [.FindOne, .ReplaceOne] }) := by
  have hany : c.docs.any (Document.hasId oid) = true := (any_hasId_iff oid c.docs).mpr hpresent
  obtain ⟨d, hfind⟩ : ∃ d, c.docs.find? (Document.hasId oid) = some d := by
    rw [← Option.isSome_iff_exists, List.find?_isSome]
    obtain ⟨d, hd, hdid⟩ := hpresent
    exact ⟨d, hd, (Document.hasId_iff oid d).mpr hdid⟩
  have hdid : d._id = BsonID.objectID oid :=
    (Document.hasId_iff oid d).mp (List.find?_some hfind)
  simp only [UpdateBlog, hid, Collection.FindOne, Bool.false_eq_true, if_false, hfind,
    Document.Decode, hdid, Collection.ReplaceOne, hany, if_true, or_true,
    List.append_assoc, List.singleton_append]

/-- What `ListBlog` does when every document decodes and the cursor does not
fail. -/
theorem ListBlog_loop_decoded : ∀ (docs : List Document) (items : List blogItem),
    docs.map Document.Decode = items.map some →
    ListBlog.loop docs none =
      ⟨items.map (fun data =>
          { Blog := { Id := data.ID.Hex, AuthorId := data.AuthorID, Title := data.Title,
                      Content := data.Title } }), .ok⟩ := by
  intro docs
  induction docs with
  | nil =>
    intro items h
    cases items with
    | nil => rfl
    | cons i rest => simp at h
  | cons d rest ih =>
    intro items h
    cases items with
    | nil => simp at h
    | cons i irest =>
      simp only [List.map_cons, List.cons.injEq] at h
      simp only [ListBlog.loop, h.1, Option.map_none', ih irest h.2, Run.push, List.map_cons]

/-- Values of the `float32` model on known cases: exact small integers, a tie
rounded to the even significand, one third, the halfway point below the
largest finite value, and the divisions by zero. -/
theorem float32_examples :
    float32.ofInt 0 = .fin false 0 (-149) ∧
    float32.ofInt 101 = .fin false 13238272 (-17) ∧
    float32.toRat (.fin false 13238272 (-17)) = some 101 ∧
    float32.ofInt 16777217 = .fin false 8388608 1 ∧
    float32.ofInt 16777219 = .fin false 8388610 1 ∧
    float32.div (float32.ofInt 1) (float32.ofInt 3) = .fin false 11184811 (-25) ∧
    float32.round false (2 ^ 128 - 2 ^ 103) 1 = .inf false ∧
    float32.round false (2 ^ 128 - 2 ^ 103 - 1) 1 = .fin false 16777215 104 ∧
    float32.div (float32.ofInt 1) (float32.ofInt 0) = .inf false ∧
    float32.div (float32.ofInt 0) (float32.ofInt 0) = .nan := by
  refine ⟨by decide, by decide, ?_, by decide, by decide, by decide, by decide, by decide,
    by decide, by decide⟩
  simp only [float32.toRat]; norm_num

/-! ## Theorems -/

/-- C2: for every `int64` input `n ≥ 1` the handler returns (any iteration
budget of at least `2 * n` is enough), and the values it emits are all prime,
in non-decreasing order, with product exactly `n`; for `n = 1` it emits
nothing. -/
theorem PrimeNumberDecomposition_primes_sorted_product (fuel : Nat) (n : Int)
    (h1 : 1 ≤ n) (hmax : n ≤ maxInt64) (hfuel : 2 * n ≤ fuel) :
    (PrimeNumberDecomposition fuel n).ending = .ok ∧
    (∀ p ∈ (PrimeNumberDecomposition fuel n).sent, Nat.Prime p.toNat) ∧
    (PrimeNumberDecomposition fuel n).sent.Sorted (· ≤ ·) ∧
    (PrimeNumberDecomposition fuel n).sent.prod = n ∧
    (n = 1 → (PrimeNumberDecomposition fuel n).sent = []) := by
  have h := PrimeNumberDecomposition_loop_spec fuel n 2 h1 hmax (le_refl _)
    (fun k hk hk2 => by omega) (by omega) (by omega)
  refine ⟨h.1, fun p hp => (h.2.1 p hp).2, h.2.2.1, h.2.2.2, ?_⟩
  rintro rfl
  obtain ⟨k, rfl⟩ : ∃ k, fuel = k + 1 := ⟨fuel - 1, by omega⟩
  simp [PrimeNumberDecomposition, PrimeNumberDecomposition.loop]

/-- Witness of C2 at `n = 12`: the handler emits 2, 2, 3. -/
theorem PrimeNumberDecomposition_primes_sorted_product_witness :
    (PrimeNumberDecomposition 24 12).sent = [2, 2, 3] ∧
    ((PrimeNumberDecomposition 24 12).ending = .ok ∧
     (∀ p ∈ (PrimeNumberDecomposition 24 12).sent, Nat.Prime p.toNat) ∧
     (PrimeNumberDecomposition 24 12).sent.Sorted (· ≤ ·) ∧
     (PrimeNumberDecomposition 24 12).sent.prod = 12 ∧
     ((12 : Int) = 1 → (PrimeNumberDecomposition 24 12).sent = [])) :=
  ⟨by decide, PrimeNumberDecomposition_primes_sorted_product 24 12 (by decide) (by decide) (by decide)⟩

/-- C3: the running maximum of `FindMaximum` starts at 0, not at the lowest
`int32` value. On the client's numbers 4, 7, 2, 19, 4, 6, 32 the handler emits
4, 7, 19, 32 as specified; on the single number -5 it emits nothing, while the
specification asks for -5 to be emitted. -/
theorem FindMaximum_starts_at_zero :
    (FindMaximum sendsSucceed (received [4, 7, 2, 19, 4, 6, 32])) = ⟨[4, 7, 19, 32], .ok⟩ ∧
    FindMaximum_spec [4, 7, 2, 19, 4, 6, 32] = [4, 7, 19, 32] ∧
    isInt32 (-5) ∧
    (FindMaximum sendsSucceed (received [-5])) = ⟨[], .ok⟩ ∧
    FindMaximum_spec [-5] = [-5] := by
  decide

/-- C4: `ComputeAverage` adds the numbers in an `int32`. On 10, 15, 20, 25, 31
the response is the `float32` next to 20.2 (it is 10590618 / 2^19, less than
2^-20 away). On 2147483647, 1 the sum wraps to -2147483648 and the response is
-1073741824, while the sum of the numbers divided by their count is
1073741824. -/
theorem ComputeAverage_sum_wraps :
    (ComputeAverage false (received [10, 15, 20, 25, 31])) =
      ⟨[{ Average := .fin false 10590618 (-19) }], .ok⟩ ∧
    |(10590618 : ℚ) * 2 ^ (-19 : Int) - 202 / 10| < 2 ^ (-20 : Int) ∧
    isInt32 2147483647 ∧ isInt32 1 ∧
    (ComputeAverage false (received [2147483647, 1])) =
      ⟨[{ Average := .fin true 8388608 7 }], .ok⟩ ∧
    float32.toRat (.fin true 8388608 7) = some (-1073741824) ∧
    ((2147483647 : ℚ) + 1) / 2 = 1073741824 := by
  refine ⟨by decide, ?_, by decide, by decide, by decide, ?_, by norm_num⟩
  · rw [abs_lt]; constructor <;> norm_num
  · simp only [float32.toRat]; norm_num

/-- C5: `SquareRoot` fails exactly when the number is negative; the failure has
kind InvalidArgument and carries no response; for a number that is not negative
the handler returns the response holding the square root, with no error. -/
theorem SquareRoot_fails_iff_negative {F : Type} (sqrt : Int → F) (number : Int) :
    ((∃ st, SquareRoot sqrt number = .error st) ↔ number < 0) ∧
    (number < 0 → ∃ msg, SquareRoot sqrt number = .error ⟨.InvalidArgument, msg⟩) ∧
    (0 ≤ number → SquareRoot sqrt number = .ok { NumberRoot := sqrt number }) := by
  unfold SquareRoot
  by_cases h : number < 0
  · simp [h]
  · simp [h]

/-- Witness of C5 at the two calls of `calculator_client`, 10 and -4. -/
theorem SquareRoot_fails_iff_negative_witness :
    SquareRoot (fun x => x) 10 = .ok { NumberRoot := 10 } ∧
    ∃ msg, SquareRoot (fun x => x) (-4) = .error ⟨.InvalidArgument, msg⟩ :=
  ⟨(SquareRoot_fails_iff_negative (fun x => x) 10).2.2 (by decide),
   (SquareRoot_fails_iff_negative (fun x => x) (-4)).2.1 (by decide)⟩

/-- C1: `ReadBlog` fills `Content` from the stored title. Creating the blog of
`blog_client` in an empty collection succeeds and returns the request's fields
under the identifier the store assigned; reading that identifier back succeeds
and returns the same id, author and title, but the title again as content. -/
theorem CreateBlog_then_ReadBlog_content_is_title :
    (CreateBlog emptyCollection false (.objectID exampleId) ⟨some exampleBlog⟩).1 =
      .ok { Blog := { Id := "5f0aff0001020304050607ab", AuthorId := "rahul",
                      Title := "my first blog", Content := "content of first blog" } } ∧
    (ReadBlog (CreateBlog emptyCollection false (.objectID exampleId) ⟨some exampleBlog⟩).2 false
        ⟨"5f0aff0001020304050607ab"⟩).1 =
      .ok { Blog := { Id := "5f0aff0001020304050607ab", AuthorId := "rahul",
                      Title := "my first blog", Content := "my first blog" } } := by
  decide

/-- C6: on an id that does not parse as an ObjectID, `ReadBlog`, `UpdateBlog`
and `DeleteBlog` fail with kind InvalidArgument, whatever the store holds and
whatever it would answer, and leave the collection as it was, the log of driver
calls included: no store operation is invoked. -/
theorem malformed_id_InvalidArgument_no_store_access (c : Collection) (id : String)
    (req : UpdateBlogRequest) (f g : Bool)
    (hid : ObjectIDFromHex id = none) (hreq : Blog.GetId req.Blog = id) :
    (∃ msg, ReadBlog c f ⟨id⟩ = (.error ⟨.InvalidArgument, msg⟩, c)) ∧
    (∃ msg, UpdateBlog c f g req = (.error ⟨.InvalidArgument, msg⟩, c)) ∧
    (∃ msg, DeleteBlog c f ⟨id⟩ = (.error ⟨.InvalidArgument, msg⟩, c)) := by
  refine ⟨⟨"Cannot parse blog ID: ", ?_⟩, ⟨"Cannot parse blog ID: ", ?_⟩,
    ⟨"Cannot parse blogID: ", ?_⟩⟩
  · simp only [ReadBlog, hid]
  · simp only [UpdateBlog, hreq, hid]
  · simp only [DeleteBlog, hid]

/-- Witness of C6 at the malformed id that `blog_client` sends, on a collection
that holds a record. -/
theorem malformed_id_InvalidArgument_no_store_access_witness :
    ObjectIDFromHex "1dhdhfhs" = none ∧
    (∃ msg, ReadBlog exampleCollection false ⟨"1dhdhfhs"⟩ =
      (.error ⟨.InvalidArgument, msg⟩, exampleCollection)) ∧
    (∃ msg, UpdateBlog exampleCollection false false ⟨some ⟨"1dhdhfhs", "a", "t", "c"⟩⟩ =
      (.error ⟨.InvalidArgument, msg⟩, exampleCollection)) ∧
    (∃ msg, DeleteBlog exampleCollection false ⟨"1dhdhfhs"⟩ =
      (.error ⟨.InvalidArgument, msg⟩, exampleCollection)) :=
  ⟨by decide,
   malformed_id_InvalidArgument_no_store_access exampleCollection "1dhdhfhs"
     ⟨some ⟨"1dhdhfhs", "a", "t", "c"⟩⟩ false false (by decide) rfl⟩

/-- C7: `UpdateBlog` fills `Content` of its response from the new title. On the
collection holding the client's blog, the update of `blog_client` succeeds and
the stored record gets the request's author, title and content under the same
id, but the returned record carries the new title as content. -/
theorem UpdateBlog_response_content_is_title :
    UpdateBlog exampleCollection false false ⟨some exampleUpdate⟩ =
      (.ok { Blog := { Id := "5f0aff0001020304050607ab", AuthorId := "changed Auther",
                       Title := "changed: my first blog",
                       Content := "changed: my first blog" } },
       ⟨[⟨.objectID exampleId, "changed Auther", "changed: content of first blog",
          "changed: my first blog"⟩],
        [.FindOne, .ReplaceOne]⟩) := by
  decide

/-- C8: in a collection with unique identifiers, whenever `DeleteBlog` succeeds
for an id, `ReadBlog` for the same id on the resulting collection fails with
kind NotFound. -/
theorem ReadBlog_after_DeleteBlog_NotFound (c : Collection) (id : String) (f g : Bool)
    (r : DeleteBlogResponse) (hc : c.uniqueIds)
    (hdel : (DeleteBlog c f ⟨id⟩).1 = .ok r) :
    ∃ msg, (ReadBlog (DeleteBlog c f ⟨id⟩).2 g ⟨id⟩).1 = .error ⟨.NotFound, msg⟩ := by
  refine ⟨"Cannot find blog with given ID: ", ?_⟩
  unfold DeleteBlog at hdel ⊢
  unfold ReadBlog
  cases hp : ObjectIDFromHex id with
  | none => simp [hp] at hdel
  | some oid =>
    simp only [hp] at hdel ⊢
    unfold Collection.DeleteOne at hdel ⊢
    cases f with
    | true => simp at hdel
    | false =>
      by_cases hany : c.docs.any (Document.hasId oid) = true
      · simp only [hany, if_true, Bool.false_eq_true, if_false, one_ne_zero]
        unfold Collection.FindOne
        simp only [find_deleteFirst_eq_none oid c.docs hc]
        cases g <;> simp
      · simp [hany] at hdel

/-- Witness of C8: deleting the record of the example collection succeeds. -/
theorem ReadBlog_after_DeleteBlog_NotFound_witness :
    (DeleteBlog exampleCollection false ⟨"5f0aff0001020304050607ab"⟩).1 =
      .ok ⟨"5f0aff0001020304050607ab"⟩ ∧
    ∃ msg, (ReadBlog (DeleteBlog exampleCollection false ⟨"5f0aff0001020304050607ab"⟩).2 false
      ⟨"5f0aff0001020304050607ab"⟩).1 = .error ⟨.NotFound, msg⟩ :=
  ⟨by decide,
   ReadBlog_after_DeleteBlog_NotFound exampleCollection "5f0aff0001020304050607ab" false false
     ⟨"5f0aff0001020304050607ab"⟩ (by decide) (by decide)⟩

/-- C9: for a well-formed id and a delete operation that does not itself fail,
the store reports zero deletions exactly when no record has the id, `DeleteBlog`
fails with kind NotFound exactly when the store reports zero deletions, and
otherwise it succeeds and returns the id string of the request. -/
theorem DeleteBlog_NotFound_iff_zero_deleted (c : Collection) (id : String) (oid : ObjectID)
    (hid : ObjectIDFromHex id = some oid) :
    ((c.DeleteOne false oid).1 = some 0 ↔ ¬ ∃ d ∈ c.docs, d._id = BsonID.objectID oid) ∧
    ((∃ msg, (DeleteBlog c false ⟨id⟩).1 = .error ⟨.NotFound, msg⟩) ↔
      (c.DeleteOne false oid).1 = some 0) ∧
    ((c.DeleteOne false oid).1 ≠ some 0 → (DeleteBlog c false ⟨id⟩).1 = .ok ⟨id⟩) := by
  unfold DeleteBlog
  simp only [hid]
  unfold Collection.DeleteOne
  rw [← any_hasId_iff]
  by_cases hany : c.docs.any (Document.hasId oid) = true
  · simp [hany]
  · simp [hany]

/-- Witness of C9: present in the example collection, absent from the empty one. -/
theorem DeleteBlog_NotFound_iff_zero_deleted_witness :
    (DeleteBlog exampleCollection false ⟨"5f0aff0001020304050607ab"⟩).1 =
      .ok ⟨"5f0aff0001020304050607ab"⟩ ∧
    ∃ msg, (DeleteBlog emptyCollection false ⟨"5f0aff0001020304050607ab"⟩).1 =
      .error ⟨.NotFound, msg⟩ :=
  ⟨(DeleteBlog_NotFound_iff_zero_deleted exampleCollection "5f0aff0001020304050607ab" exampleId
      (by decide)).2.2 (by decide),
   (DeleteBlog_NotFound_iff_zero_deleted emptyCollection "5f0aff0001020304050607ab" exampleId
      (by decide)).2.1.mpr (by decide)⟩

/-- C10: `ListBlog` fills `Content` of every response from the stored title. On
the collection holding the client's blog, whose enumeration yields that one
record without a read error, the handler emits one response and ends the
stream successfully, but the response carries the title as content. -/
theorem ListBlog_response_content_is_title :
    (ListBlog exampleCollection false none).1 =
      ⟨[{ Blog := { Id := "5f0aff0001020304050607ab", AuthorId := "rahul",
                    Title := "my first blog", Content := "my first blog" } }], .ok⟩ := by
  decide

/-- The greeting lines of `LongGreet` are appended to `result` in arrival order. -/
theorem LongGreet_loop_received (b : Bool) (reqs : List LongGreetRequest) : ∀ result : String,
    LongGreet.loop b (received reqs) result =
      ⟨[{ Result := (reqs.map (fun r => "Hello " ++ Greeting.GetFirstName r.Greeting ++ " " ++
            Greeting.GetLastName r.Greeting ++ " ! ")).foldl (· ++ ·) result }],
        if b then .transportError else .ok⟩ := by
  induction reqs with
  | nil => intro result; rfl
  | cons r rest ih =>
    intro result
    have := ih (result ++ ("Hello " ++ Greeting.GetFirstName r.Greeting ++ " " ++
      Greeting.GetLastName r.Greeting ++ " ! "))
    simp only [received] at this
    simp only [received, List.map_cons, LongGreet.loop, List.foldl_cons, this]

/-- A read error before the done-signal: `LongGreet` has sent nothing. -/
theorem LongGreet_loop_read_error (b : Bool) (reqs : List LongGreetRequest)
    (rest : List (Recv LongGreetRequest)) : ∀ result : String,
    LongGreet.loop b (received reqs ++ Recv.err :: rest) result = ⟨[], .fatal⟩ := by
  induction reqs with
  | nil => intro result; rfl
  | cons r more ih =>
    intro result
    have := ih (result ++ ("Hello " ++ Greeting.GetFirstName r.Greeting ++ " " ++
      Greeting.GetLastName r.Greeting ++ " ! "))
    simp only [received] at this
    simp only [received, List.map_cons, List.cons_append, LongGreet.loop]
    exact this

/-- Without read or send errors `GreetEveryone` answers every request in turn. -/
theorem GreetEveryone_loop_received (reqs : List GreetEveryoneRequest) : ∀ k : Nat,
    GreetEveryone.loop sendsSucceed (received reqs) k =
      ⟨reqs.map (fun r => { Result := "Hello " ++ Greeting.GetFirstName r.Greeting ++ "! " }),
        .ok⟩ := by
  induction reqs with
  | nil => intro k; rfl
  | cons r rest ih =>
    intro k
    have := ih (k + 1)
    simp only [received] at this
    simp only [received, List.map_cons, GreetEveryone.loop, sendsSucceed, Bool.false_eq_true,
      if_false, this, Run.push]

/-- C13: for every sequence of greetings received before the done-signal,
`LongGreet` passes exactly one response to `SendAndClose`, at the done-signal,
holding the lines "Hello first last ! " joined in arrival order (the empty
string for no greeting), and it returns what `SendAndClose` returns; when the
stream breaks before the done-signal no response has been sent. -/
theorem LongGreet_one_response_concatenated (b : Bool) (reqs : List LongGreetRequest)
    (rest : List (Recv LongGreetRequest)) :
    LongGreet b (received reqs) =
      ⟨[{ Result := (reqs.map (fun r => "Hello " ++ Greeting.GetFirstName r.Greeting ++ " " ++
            Greeting.GetLastName r.Greeting ++ " ! ")).foldl (· ++ ·) "" }],
        if b then .transportError else .ok⟩ ∧
    (LongGreet b (received reqs ++ Recv.err :: rest)).sent = [] ∧
    LongGreet false (received []) = ⟨[{ Result := "" }], .ok⟩ := by
  refine ⟨LongGreet_loop_received b reqs "", ?_, rfl⟩
  unfold LongGreet
  rw [LongGreet_loop_read_error]

/-- C14: when no read and no send fails, `GreetEveryone` emits one response per
request, in order, the i-th being "Hello " + first name + "! " of the i-th
request; the last names play no part: two streams with the same first names
get the same responses. -/
theorem GreetEveryone_one_response_each (reqs : List GreetEveryoneRequest) :
    GreetEveryone sendsSucceed (received reqs) =
      ⟨reqs.map (fun r => { Result := "Hello " ++ Greeting.GetFirstName r.Greeting ++ "! " }),
        .ok⟩ ∧
    (GreetEveryone sendsSucceed (received reqs)).sent.length = reqs.length ∧
    (∀ other : List GreetEveryoneRequest,
      other.map (fun r => Greeting.GetFirstName r.Greeting) =
        reqs.map (fun r => Greeting.GetFirstName r.Greeting) →
      GreetEveryone sendsSucceed (received other) = GreetEveryone sendsSucceed (received reqs)) := by
  have key : ∀ l : List GreetEveryoneRequest, GreetEveryone sendsSucceed (received l) =
      ⟨(l.map (fun r => Greeting.GetFirstName r.Greeting)).map
        (fun f => { Result := "Hello " ++ f ++ "! " }), .ok⟩ := by
    intro l
    unfold GreetEveryone
    rw [GreetEveryone_loop_received l 0, List.map_map]
    rfl
  refine ⟨?_, ?_, ?_⟩
  · rw [key, List.map_map]; rfl
  · rw [key]; simp
  · intro other h
    rw [key, key, h]

/-- Witness of C14: the same first names with other last names. -/
theorem GreetEveryone_one_response_each_witness :
    GreetEveryone sendsSucceed (received [⟨some ⟨"Rahul", "Singh"⟩⟩, ⟨some ⟨"Ana", "B"⟩⟩]) =
      ⟨[{ Result := "Hello Rahul! " }, { Result := "Hello Ana! " }], .ok⟩ ∧
    GreetEveryone sendsSucceed (received [⟨some ⟨"Rahul", "X"⟩⟩, ⟨some ⟨"Ana", "Y"⟩⟩]) =
      GreetEveryone sendsSucceed (received [⟨some ⟨"Rahul", "Singh"⟩⟩, ⟨some ⟨"Ana", "B"⟩⟩]) :=
  ⟨by decide,
   (GreetEveryone_one_response_each [⟨some ⟨"Rahul", "Singh"⟩⟩, ⟨some ⟨"Ana", "B"⟩⟩]).2.2
     [⟨some ⟨"Rahul", "X"⟩⟩, ⟨some ⟨"Ana", "Y"⟩⟩] (by decide)⟩

/-- C15: for every input `n ≤ 1`, zero and the negative numbers included,
`PrimeNumberDecomposition` emits nothing and returns `nil`. -/
theorem PrimeNumberDecomposition_at_most_one (fuel : Nat) (n : Int)
    (hn : n ≤ 1) (hfuel : 1 ≤ fuel) :
    PrimeNumberDecomposition fuel n = ⟨[], .ok⟩ := by
  obtain ⟨k, rfl⟩ : ∃ k, fuel = k + 1 := ⟨fuel - 1, by omega⟩
  have h : ¬ n > 1 := by omega
  simp only [PrimeNumberDecomposition, PrimeNumberDecomposition.loop, h, if_false]

/-- Witness of C15 at the lowest `int64` value. -/
theorem PrimeNumberDecomposition_at_most_one_witness :
    PrimeNumberDecomposition 1 minInt64 = ⟨[], .ok⟩ :=
  PrimeNumberDecomposition_at_most_one 1 minInt64 (by decide) (by decide)

/-- C19: when no request arrives before the done-signal, `ComputeAverage` does
not fail in the division: it passes to `SendAndClose` one response whose
average is `float32(0) / float32(0)`, not-a-number. -/
theorem ComputeAverage_no_request_NaN (b : Bool) :
    float32.div (float32.ofInt 0) (float32.ofInt 0) = .nan ∧
    ComputeAverage b (received []) =
      ⟨[{ Average := .nan }], if b then .transportError else .ok⟩ := by
  cases b <;> decide



/-- C11: `CreateBlog` inserts the request's author, content and title with a
zero `ID`, so the store assigns the identifier. When the insert fails, or the
assigned identifier is not an ObjectID, the handler fails with kind Internal;
otherwise it succeeds with the hex form of the assigned identifier and the
request's fields. It fails with no other kind, and the `Id` the caller put in
the request has no effect. -/
theorem CreateBlog_Internal_or_created (c : Collection) (fault : Bool) (generated : BsonID)
    (req : CreateBlogRequest) :
    ((c.InsertOne fault generated ⟨NilObjectID, Blog.GetAuthorId req.Blog,
        Blog.GetContent req.Blog, Blog.GetTitle req.Blog⟩).1 = none →
      ∃ msg, (CreateBlog c fault generated req).1 = .error ⟨.Internal, msg⟩) ∧
    (∀ n, (c.InsertOne fault generated ⟨NilObjectID, Blog.GetAuthorId req.Blog,
        Blog.GetContent req.Blog, Blog.GetTitle req.Blog⟩).1 = some (.other n) →
      ∃ msg, (CreateBlog c fault generated req).1 = .error ⟨.Internal, msg⟩) ∧
    (∀ oid, (c.InsertOne fault generated ⟨NilObjectID, Blog.GetAuthorId req.Blog,
        Blog.GetContent req.Blog, Blog.GetTitle req.Blog⟩).1 = some (.objectID oid) →
      generated = .objectID oid ∧
      (CreateBlog c fault generated req).1 =
        .ok { Blog := { Id := oid.Hex, AuthorId := Blog.GetAuthorId req.Blog,
                        Title := Blog.GetTitle req.Blog,
                        Content := Blog.GetContent req.Blog } }) ∧
    (∀ st, (CreateBlog c fault generated req).1 = .error st → st.code = .Internal) ∧
    (∀ callerId : String,
      CreateBlog c fault generated ⟨req.Blog.map (fun b => { b with Id := callerId })⟩ =
        CreateBlog c fault generated req) := by
  refine ⟨?_, ?_, ?_, ?_, ?_⟩
  · intro h
    refine ⟨"Internal Error: ", ?_⟩
    simp only [CreateBlog]
    split
    · rfl
    · rename_i id c1 heq; rw [heq] at h; simp at h
  · intro n h
    refine ⟨"cannot convert to objectID", ?_⟩
    simp only [CreateBlog]
    split
    · rename_i c1 heq; rw [heq] at h; simp at h
    · rename_i id c1 heq
      rw [heq] at h
      simp only [Option.some.injEq] at h
      subst h
      rfl
  · intro oid h
    constructor
    · unfold Collection.InsertOne at h
      simp only [if_true] at h
      split at h
      · simp at h
      · split at h
        · simp at h
        · simpa using h
    · simp only [CreateBlog]
      split
      · rename_i c1 heq; rw [heq] at h; simp at h
      · rename_i id c1 heq
        rw [heq] at h
        simp only [Option.some.injEq] at h
        subst h
        rfl
  · intro st h
    simp only [CreateBlog] at h
    split at h
    · simp only [Except.error.injEq] at h; rw [← h]
    · split at h
      · simp only [Except.error.injEq] at h; rw [← h]
      · simp at h
  · intro callerId
    cases hb : req.Blog with
    | none => cases req; simp only at hb; subst hb; rfl
    | some b => cases req; simp only at hb; subst hb; rfl

/-- Witness of C11: the insert of the client's blog into the empty collection
succeeds, and fails with kind Internal when the store is down. -/
theorem CreateBlog_Internal_or_created_witness :
    (CreateBlog emptyCollection false (.objectID exampleId) ⟨some exampleBlog⟩).1 =
      .ok { Blog := { Id := "5f0aff0001020304050607ab", AuthorId := "rahul",
                      Title := "my first blog", Content := "content of first blog" } } ∧
    ∃ msg, (CreateBlog emptyCollection true (.objectID exampleId) ⟨some exampleBlog⟩).1 =
      .error ⟨.Internal, msg⟩ :=
  ⟨((CreateBlog_Internal_or_created emptyCollection false (.objectID exampleId)
      ⟨some exampleBlog⟩).2.2.1 exampleId (by decide)).2,
   (CreateBlog_Internal_or_created emptyCollection true (.objectID exampleId)
      ⟨some exampleBlog⟩).1 (by decide)⟩



/-- The loop of `GreetWithDeadLine` when the first `k` polls do not see
`context.Canceled`: it goes through `k` iterations and continues from there. -/
theorem GreetWithDeadLine_loop_skip (ctx : Nat → CtxErr) : ∀ (k n now : Nat),
    (∀ j < k, ctx (now + j * Second) ≠ .Canceled) →
    GreetWithDeadLine.loop ctx (k + n) now =
      ((GreetWithDeadLine.loop ctx n (now + k * Second)).1,
       completedSteps k ++ (GreetWithDeadLine.loop ctx n (now + k * Second)).2) := by
  intro k
  induction k with
  | zero => intro n now _; simp [completedSteps]
  | succ k ih =>
    intro n now h
    have h0 : ctx now ≠ .Canceled := by simpa using h 0 (by omega)
    have hk : ∀ j < k, ctx (now + 1 * Second + j * Second) ≠ .Canceled := by
      intro j hj
      have := h (j + 1) (by omega)
      rwa [show now + (j + 1) * Second = now + 1 * Second + j * Second by ring] at this
    rw [show k + 1 + n = (k + n) + 1 by omega]
    simp only [GreetWithDeadLine.loop, h0, if_false, ih n (now + 1 * Second) hk, completedSteps,
      List.cons_append]
    rw [show now + 1 * Second + k * Second = now + (k + 1) * Second by ring]

/-- C12, as stated, fails: with a cancellation that becomes visible 2.5 seconds
after the start, before the third work step is over, no poll sees it and the
handler returns the success response. -/
theorem GreetWithDeadLine_late_cancellation_succeeds :
    (∃ t, t < 3 * Second ∧ cancelledDuringLastStep t = .Canceled) ∧
    GreetWithDeadLine cancelledDuringLastStep ⟨some exampleGreeting⟩ =
      (.ok { Result := "Hello Rahul" }, completedSteps 3) :=
  ⟨⟨2500000000, by decide, by decide⟩, by decide⟩

/-- C12, amended: when the caller's cancellation is visible on the context no
later than the third poll, two seconds after the start, and stays visible once
it is, the handler returns an error of kind Canceled and no response. -/
theorem GreetWithDeadLine_cancelled_by_last_poll (ctx : Nat → CtxErr)
    (req : GreetWithDeadLineRequest) (t : Nat)
    (hstays : ∀ u v, u ≤ v → ctx u = .Canceled → ctx v = .Canceled)
    (ht : t ≤ 2 * Second) (hc : ctx t = .Canceled) :
    (GreetWithDeadLine ctx req).1 =
      .error ⟨.Canceled, "the client has canceled the request"⟩ := by
  have h2 : ctx (0 + 1 * Second + 1 * Second) = .Canceled :=
    hstays t _ (by omega) hc
  have hfst : (GreetWithDeadLine.loop ctx 3 0).1 = true := by
    simp only [GreetWithDeadLine.loop, h2, if_true]
    by_cases h0 : ctx 0 = .Canceled
    · simp [h0]
    · rw [if_neg h0]
      by_cases h1 : ctx (0 + 1 * Second) = .Canceled
      · rw [if_pos h1]
      · rw [if_neg h1]
  unfold GreetWithDeadLine
  revert hfst
  generalize GreetWithDeadLine.loop ctx 3 0 = r
  rcases r with ⟨b, events⟩
  intro hb
  simp only at hb
  subst hb
  rfl

/-- Witness of C12, amended: a cancellation visible from 1.5 seconds on. -/
theorem GreetWithDeadLine_cancelled_by_last_poll_witness :
    (GreetWithDeadLine (fun t => if t < 1500000000 then .nil else .Canceled)
      ⟨some exampleGreeting⟩).1 =
      .error ⟨.Canceled, "the client has canceled the request"⟩ :=
  GreetWithDeadLine_cancelled_by_last_poll (fun t => if t < 1500000000 then .nil else .Canceled)
    ⟨some exampleGreeting⟩ 1500000000
    (fun u v huv hu => by
      by_cases h : u < 1500000000
      · simp [h] at hu
      · have : ¬ v < 1500000000 := by omega
        simp [this])
    (by decide) (by decide)

/-- C17: the handler polls the context before each of its three work steps. If
the `k`-th poll (`k` = 1, 2, 3) is the first to see `context.Canceled`, the
handler returns an error of kind Canceled and no response, and its run is
`k - 1` completed iterations followed by that poll: `k - 1` work steps. -/
theorem GreetWithDeadLine_cancelled_at_poll (ctx : Nat → CtxErr)
    (req : GreetWithDeadLineRequest) (k : Nat)
    (hk1 : 1 ≤ k) (hk3 : k ≤ 3)
    (hfirst : ∀ j < k - 1, ctx (j * Second) ≠ .Canceled)
    (hc : ctx ((k - 1) * Second) = .Canceled) :
    GreetWithDeadLine ctx req =
      (.error ⟨.Canceled, "the client has canceled the request"⟩,
       completedSteps (k - 1) ++ [.poll]) ∧
    (completedSteps (k - 1) ++ [Event.poll]).count .sleep = k - 1 := by
  obtain ⟨n, hn⟩ : ∃ n, 3 = (k - 1) + (n + 1) := ⟨3 - k, by omega⟩
  have hskip := GreetWithDeadLine_loop_skip ctx (k - 1) (n + 1) 0
    (fun j hj => by simpa using hfirst j hj)
  rw [← hn] at hskip
  simp only [Nat.zero_add] at hskip
  have hloop : GreetWithDeadLine.loop ctx (n + 1) ((k - 1) * Second) = (true, [.poll]) := by
    simp only [GreetWithDeadLine.loop, hc, if_true]
  rw [hloop] at hskip
  constructor
  · unfold GreetWithDeadLine
    rw [hskip]
  · have : k = 1 ∨ k = 2 ∨ k = 3 := by omega
    rcases this with rfl | rfl | rfl <;> decide

/-- Witness of C17: cancellation first seen by the second poll. -/
theorem GreetWithDeadLine_cancelled_at_poll_witness :
    GreetWithDeadLine (fun t => if t < 500000000 then .nil else .Canceled)
      ⟨some exampleGreeting⟩ =
      (.error ⟨.Canceled, "the client has canceled the request"⟩,
       [.poll, .sleep, .poll]) :=
  (GreetWithDeadLine_cancelled_at_poll (fun t => if t < 500000000 then .nil else .Canceled)
    ⟨some exampleGreeting⟩ 2 (by decide) (by decide)
    (fun j hj => by
      have : j = 0 := by omega
      subst this
      decide)
    (by decide)).1

/-- C18: the handler only looks for `context.Canceled`. When none of the three
polls sees it, an elapsed deadline included, the handler goes through all three
work steps and returns the response "Hello " + first name with no error. -/
theorem GreetWithDeadLine_success_without_Canceled (ctx : Nat → CtxErr)
    (req : GreetWithDeadLineRequest)
    (h : ∀ j < 3, ctx (j * Second) ≠ .Canceled) :
    GreetWithDeadLine ctx req =
      (.ok { Result := "Hello " ++ Greeting.GetFirstName req.Greeting }, completedSteps 3) ∧
    (completedSteps 3).count .sleep = 3 := by
  have hskip := GreetWithDeadLine_loop_skip ctx 3 0 0 (fun j hj => by simpa using h j hj)
  constructor
  · unfold GreetWithDeadLine
    rw [show (3 : Nat) = 3 + 0 from rfl, hskip]
    simp [GreetWithDeadLine.loop]
  · decide

/-- Witness of C18: the deadline has elapsed, nothing was cancelled. -/
theorem GreetWithDeadLine_success_without_Canceled_witness :
    GreetWithDeadLine deadlineElapsed ⟨some exampleGreeting⟩ =
      (.ok { Result := "Hello Rahul" },
       [.poll, .sleep, .poll, .sleep, .poll, .sleep]) :=
  (GreetWithDeadLine_success_without_Canceled deadlineElapsed ⟨some exampleGreeting⟩
    (fun j _ => by simp [deadlineElapsed])).1

/-- The states of the loop under the invariant of `PrimeNumberDecomposition_loop_spec`:
consecutive states are iterations, the first state is the start, the last has
remaining value 1, and the emissions are those of the states. -/
theorem PrimeNumberDecomposition_states_spec : ∀ (fuel : Nat) (n d : Int),
    1 ≤ n → n ≤ maxInt64 → 2 ≤ d →
    (∀ k : Int, 2 ≤ k → k < d → ¬ k ∣ n) →
    2 * n - d < fuel → 0 < fuel →
    List.Chain' PrimeNumberDecomposition.iteration (PrimeNumberDecomposition.states fuel n d) ∧
    (PrimeNumberDecomposition.states fuel n d).head? = some (n, d) ∧
    (∃ init e, PrimeNumberDecomposition.states fuel n d = init ++ [(1, e)]) ∧
    (PrimeNumberDecomposition.loop fuel n d).sent =
      (PrimeNumberDecomposition.states fuel n d).filterMap PrimeNumberDecomposition.emission := by
  intro fuel
  induction fuel with
  | zero =>
    intro n d h1 hmax hd hleast hfuel hpos
    omega
  | succ fuel ih =>
    intro n d h1 hmax hd hleast hfuel hpos
    unfold PrimeNumberDecomposition.loop PrimeNumberDecomposition.states
    by_cases hn : n > 1
    · have hdn : d ≤ n := by
        by_contra hlt
        exact hleast n (by omega) (by omega) (dvd_refl n)
      have hd0 : d ≠ 0 := by omega
      rw [if_pos hn, if_neg hd0, if_pos hn, if_neg hd0]
      rw [Int.tmod_eq_emod (by omega) (by omega)]
      by_cases hmod : n % d = 0
      · rw [if_pos hmod, if_pos hmod, Int.tdiv_eq_ediv (by omega) (by omega)]
        have hdvd : d ∣ n := Int.dvd_of_emod_eq_zero hmod
        have hq : n / d * d = n := Int.ediv_mul_cancel hdvd
        have hq1 : 1 ≤ n / d := by
          by_contra hlt
          have : n / d ≤ 0 := by omega
          nlinarith
        have hqn : n / d < n := by nlinarith
        have hwrap : wrapInt64 (n / d) = n / d := by
          apply wrapInt64_eq_self
          unfold isInt64 minInt64
          unfold maxInt64 at *
          omega
        rw [hwrap]
        have hleast2 : ∀ k : Int, 2 ≤ k → k < d → ¬ k ∣ n / d := by
          intro k hk hkd hkq
          exact hleast k hk hkd (dvd_trans hkq (Int.ediv_dvd_of_dvd hdvd))
        have hfuel2 : 2 * (n / d) - d < fuel := by push_cast at hfuel; omega
        obtain ⟨e1, e2, ⟨init, e, e3⟩, e4⟩ :=
          ih (n / d) d hq1 (by omega) hd hleast2 hfuel2 (by push_cast at hfuel; omega)
        refine ⟨?_, rfl, ⟨(n, d) :: init, e, by rw [e3]; rfl⟩, ?_⟩
        · rw [List.chain'_cons']
          refine ⟨?_, e1⟩
          intro y hy
          rw [e2] at hy
          simp only [Option.mem_def, Option.some.injEq] at hy
          subst hy
          exact ⟨hn, hd, hdn, by omega, Or.inl ⟨hmod, rfl, hqn⟩⟩
        · have hem : PrimeNumberDecomposition.emission (n, d) = some d := by
            simp [PrimeNumberDecomposition.emission, hn, hmod]
          simp only [Run.push, List.filterMap_cons, hem, e4]
      · rw [if_neg hmod, if_neg hmod]
        have hne : d ≠ n := by
          rintro rfl
          exact hmod (Int.emod_self)
        have hwrap : wrapInt64 (d + 1) = d + 1 := by
          apply wrapInt64_eq_self
          unfold isInt64 minInt64
          unfold maxInt64 at *
          omega
        rw [hwrap]
        have hleast2 : ∀ k : Int, 2 ≤ k → k < d + 1 → ¬ k ∣ n := by
          intro k hk hkd
          by_cases hkd2 : k < d
          · exact hleast k hk hkd2
          · have : k = d := by omega
            subst this
            intro hdvd
            exact hmod (Int.emod_eq_zero_of_dvd hdvd)
        have hfuel2 : 2 * n - (d + 1) < fuel := by push_cast at hfuel; omega
        obtain ⟨e1, e2, ⟨init, e, e3⟩, e4⟩ :=
          ih n (d + 1) h1 hmax (by omega) hleast2 hfuel2 (by push_cast at hfuel; omega)
        refine ⟨?_, rfl, ⟨(n, d) :: init, e, by rw [e3]; rfl⟩, ?_⟩
        · rw [List.chain'_cons']
          refine ⟨?_, e1⟩
          intro y hy
          rw [e2] at hy
          simp only [Option.mem_def, Option.some.injEq] at hy
          subst hy
          exact ⟨hn, hd, hdn, by omega, Or.inr ⟨hmod, rfl⟩⟩
        · have hem : PrimeNumberDecomposition.emission (n, d) = none := by
            simp [PrimeNumberDecomposition.emission, hmod]
          simp only [List.filterMap_cons, hem, e4]
    · rw [if_neg hn, if_neg hn]
      have : n = 1 := by omega
      subst this
      refine ⟨List.chain'_singleton _, rfl, ⟨[], d, rfl⟩, ?_⟩
      simp [PrimeNumberDecomposition.emission]

/-- C16, as stated, fails: the divisor does exceed the remaining value once
the remaining value has dropped to 1. On input 2 the loop emits 2 and stops in
the state with remaining value 1 and divisor 2; on input 0 it stops at once
with remaining value 0 and divisor 2. -/
theorem PrimeNumberDecomposition_divisor_exceeds_at_end :
    PrimeNumberDecomposition 4 2 = ⟨[2], .ok⟩ ∧
    PrimeNumberDecomposition.states 4 2 2 = [(2, 2), (1, 2)] ∧
    PrimeNumberDecomposition.states 1 0 2 = [(0, 2)] ∧
    ¬ (∀ s ∈ PrimeNumberDecomposition.states 4 2 2, s.2 ≤ s.1) := by
  refine ⟨by decide, by decide, by decide, ?_⟩
  intro h
  have := h (1, 2) (by decide)
  exact absurd this (by decide)

/-- C16, amended: for every `int64` input the loop of
`PrimeNumberDecomposition` terminates (an iteration budget of at least 1 and at
least `2 * n` is enough). Each iteration starts with the divisor between 2 and
the remaining value, so within `int64`; it either emits the divisor and
strictly decreases the remaining value, leaving the divisor as it is, or raises
the divisor by exactly one. The loop stops in a state whose remaining value is
at most 1, and the values emitted are those of the iterations that emit. -/
theorem PrimeNumberDecomposition_terminates (fuel : Nat) (n : Int)
    (hn : isInt64 n) (hpos : 1 ≤ fuel) (hfuel : 2 * n ≤ fuel) :
    (PrimeNumberDecomposition fuel n).ending = .ok ∧
    List.Chain' PrimeNumberDecomposition.iteration (PrimeNumberDecomposition.states fuel n 2) ∧
    (∃ init r e, PrimeNumberDecomposition.states fuel n 2 = init ++ [(r, e)] ∧ r ≤ 1) ∧
    (PrimeNumberDecomposition fuel n).sent =
      (PrimeNumberDecomposition.states fuel n 2).filterMap PrimeNumberDecomposition.emission := by
  by_cases h1 : 1 ≤ n
  · have hl := PrimeNumberDecomposition_loop_spec fuel n 2 h1 hn.2 (le_refl _)
      (fun k hk hk2 => by omega) (by omega) (by omega)
    obtain ⟨e1, _, ⟨init, e, e3⟩, e4⟩ := PrimeNumberDecomposition_states_spec fuel n 2 h1 hn.2
      (le_refl _) (fun k hk hk2 => by omega) (by omega) (by omega)
    exact ⟨hl.1, e1, ⟨init, 1, e, e3, le_refl _⟩, e4⟩
  · obtain ⟨k, rfl⟩ : ∃ k, fuel = k + 1 := ⟨fuel - 1, by omega⟩
    have h : ¬ n > 1 := by omega
    have h2 : ¬ 1 < n := by omega
    simp only [PrimeNumberDecomposition, PrimeNumberDecomposition.loop,
      PrimeNumberDecomposition.states, h, if_false, List.chain'_singleton, true_and,
      List.filterMap_cons, PrimeNumberDecomposition.emission, h2, false_and, List.filterMap_nil,
      and_true]
    exact ⟨[], n, 2, rfl, by omega⟩

/-- Witness of C16 at `n = 12`: the states are (12, 2), (6, 2), (3, 2), (3, 3),
(1, 3). -/
theorem PrimeNumberDecomposition_terminates_witness :
    PrimeNumberDecomposition.states 24 12 2 = [(12, 2), (6, 2), (3, 2), (3, 3), (1, 3)] ∧
    ((PrimeNumberDecomposition 24 12).ending = .ok ∧
     List.Chain' PrimeNumberDecomposition.iteration (PrimeNumberDecomposition.states 24 12 2) ∧
     (∃ init r e, PrimeNumberDecomposition.states 24 12 2 = init ++ [(r, e)] ∧ r ≤ 1) ∧
     (PrimeNumberDecomposition 24 12).sent =
       (PrimeNumberDecomposition.states 24 12 2).filterMap PrimeNumberDecomposition.emission) :=
  ⟨by decide, PrimeNumberDecomposition_terminates 24 12 (by decide) (by decide) (by decide)⟩

/-- The running maxima above `m`: each exceeds `m` and is one of the numbers,
they increase strictly, and the last of them (or `m` when there is none) is at
least `m` and at least every number. -/
theorem runningMaxima_spec (xs : List Int) : ∀ m : Int,
    (∀ y ∈ runningMaxima xs m, m < y ∧ y ∈ xs) ∧
    (runningMaxima xs m).Sorted (· < ·) ∧
    m ≤ (runningMaxima xs m).getLastD m ∧
    (∀ x ∈ xs, x ≤ (runningMaxima xs m).getLastD m) := by
  induction xs with
  | nil => intro m; simp [runningMaxima]
  | cons x rest ih =>
    intro m
    unfold runningMaxima
    by_cases h : x > m
    · rw [if_pos h]
      obtain ⟨i1, i2, i3, i4⟩ := ih x
      refine ⟨?_, ?_, ?_, ?_⟩
      · intro y hy
        rw [List.mem_cons] at hy
        rcases hy with rfl | hy
        · exact ⟨h, List.mem_cons_self _ _⟩
        · exact ⟨by have := (i1 y hy).1; omega, List.mem_cons_of_mem _ (i1 y hy).2⟩
      · rw [List.sorted_cons]
        exact ⟨fun b hb => (i1 b hb).1, i2⟩
      · rw [List.getLastD_cons]; omega
      · intro z hz
        rw [List.getLastD_cons]
        rw [List.mem_cons] at hz
        rcases hz with rfl | hz
        · exact i3
        · exact i4 z hz
    · rw [if_neg h]
      obtain ⟨i1, i2, i3, i4⟩ := ih m
      refine ⟨fun y hy => ⟨(i1 y hy).1, List.mem_cons_of_mem _ (i1 y hy).2⟩, i2, i3, ?_⟩
      intro z hz
      rw [List.mem_cons] at hz
      rcases hz with rfl | hz
      · omega
      · exact i4 z hz

/-- C20: for every sequence of numbers received, the values `FindMaximum`
emits increase strictly, and when it emits at least one, the last emitted value
is one of the numbers received and no number received is larger. -/
theorem FindMaximum_increasing_last_is_largest (numbers : List Int) :
    (FindMaximum sendsSucceed (received numbers)).sent.Sorted (· < ·) ∧
    ∀ h : (FindMaximum sendsSucceed (received numbers)).sent ≠ [],
      (FindMaximum sendsSucceed (received numbers)).sent.getLast h ∈ numbers ∧
      ∀ x ∈ numbers, x ≤ (FindMaximum sendsSucceed (received numbers)).sent.getLast h := by
  have hrun : (FindMaximum sendsSucceed (received numbers)).sent = runningMaxima numbers 0 := by
    unfold FindMaximum
    rw [FindMaximum_loop_received]
  rw [hrun]
  obtain ⟨i1, i2, _, i4⟩ := runningMaxima_spec numbers 0
  refine ⟨i2, fun h => ?_⟩
  have hlast : (runningMaxima numbers 0).getLast h = (runningMaxima numbers 0).getLastD 0 := by
    rw [List.getLastD_eq_getLast?, List.getLast?_eq_getLast _ h]
    rfl
  refine ⟨(i1 _ (List.getLast_mem h)).2, fun x hx => ?_⟩
  rw [hlast]
  exact i4 x hx

/-- Witness of C20 on the numbers of `calculator_client`: the last value
emitted, 32, is the largest number. -/
theorem FindMaximum_increasing_last_is_largest_witness :
    (FindMaximum sendsSucceed (received [4, 7, 2, 19, 4, 6, 32])).sent = [4, 7, 19, 32] ∧
    ∀ x ∈ [4, 7, 2, 19, 4, 6, 32],
      x ≤ (FindMaximum sendsSucceed (received [4, 7, 2, 19, 4, 6, 32])).sent.getLast
        (by decide) :=
  ⟨by decide,
   ((FindMaximum_increasing_last_is_largest [4, 7, 2, 19, 4, 6, 32]).2 (by decide)).2⟩

end GoGrpc
